import Mathlib

/-!
# loggie: leveled text logging (formatter.go, loggie.go)

A shallow embedding of the formatter and the logger of `syreclabs/loggie`.

* A Go `string` or `[]byte` is the list of its bytes, a byte being its numeric value.
* A Go `int` is an `Int`; where 64-bit wrap-around can occur it is applied explicitly (`wrap`).
* A field mask is given by its bit pattern, a `Nat`, so that `&` and `|` are `&&&` and `|||`.
* Everything the code obtains from outside the package (the clock, the stack dump, the
  choice made by `sync.Pool`, `fmt.Sprintf`) is an explicit input, collected in `Runtime`.
* A Go run-time panic raised by an out-of-range index is the result `none`.
-/

namespace Loggie

/-- A Go byte sequence (`string` or `[]byte`). -/
abbrev Bytes := List Nat

/-- The bytes of an ASCII string literal of the source. -/
def ascii (s : String) : Bytes := s.toList.map Char.toNat

/-! ## loggie.go: levels -/

def Ldebug : Int := 0
def Linfo : Int := 1
def Lwarning : Int := 2
def Lerror : Int := 3
def Lfatal : Int := 4
def Lpanic : Int := 5
def Lnone : Int := 6

/-! ## formatter.go: flags, colors, level table -/

def Fdate : Nat := 1
def Ftime : Nat := 2
def Fmilliseconds : Nat := 4
def Futc : Nat := 8
def Flevel : Nat := 16
def Fname : Nat := 32
def Fcolor : Nat := 64
def Fdefault : Nat := Fdate ||| Ftime ||| Fmilliseconds ||| Flevel ||| Fname

/-- Declared value of the variable `Cdate`. -/
def Cdate : Bytes := ascii "\x1b[0;37m"
/-- Declared value of the variable `Ctime`. -/
def Ctime : Bytes := ascii "\x1b[0;37m"
/-- Declared value of the variable `Cname`. -/
def Cname : Bytes := ascii "\x1b[0;36m"

def creset : Bytes := ascii "\x1b[0m"

/-- A `map[int][2]string`: key, then element 0 (label) and element 1 (color). -/
abbrev LevelTable := List (Int × Bytes × Bytes)

/-- Declared value of the variable `Mlevel`. -/
def Mlevel : LevelTable :=
  [ (Ldebug, ascii "DBG", ascii "\x1b[0;34m"),
    (Linfo, ascii "INF", ascii "\x1b[0;32m"),
    (Lwarning, ascii "WRN", ascii "\x1b[0;33m"),
    (Lerror, ascii "ERR", ascii "\x1b[0;31m"),
    (Lfatal, ascii "FTL", ascii "\x1b[1;31m"),
    (Lpanic, ascii "PAN", ascii "\x1b[1;31m") ]

/-- Map indexing `m[lvl]`: the stored pair, or the zero value (two empty strings) when the
key is absent. -/
def LevelTable.index (m : LevelTable) (lvl : Int) : Bytes × Bytes :=
  (m.lookup lvl).getD ([], [])

/-- The package-level variables of formatter.go; they are exported and assignable. -/
structure Globals where
  Cdate : Bytes
  Ctime : Bytes
  Cname : Bytes
  Mlevel : LevelTable

/-- The package variables as declared in the source. -/
def Globals.declared : Globals :=
  { Cdate := Loggie.Cdate, Ctime := Loggie.Ctime, Cname := Loggie.Cname,
    Mlevel := Loggie.Mlevel }

/-! ## time.Time as seen by formatHeader -/

/-- Calendar and clock fields of an instant in one time zone. -/
structure Civil where
  year : Int
  month : Int
  day : Int
  hour : Int
  min : Int
  sec : Int
  nsec : Int
deriving DecidableEq, Repr

/-- A `time.Time`: the fields in the location the value carries, and the fields of the same
instant in UTC. -/
structure Time where
  loc : Civil
  utc : Civil
deriving DecidableEq, Repr

/-- The method `Time.UTC`: same instant, location set to UTC. -/
def Time.UTC (t : Time) : Time := { loc := t.utc, utc := t.utc }
/-- The method `Time.Date`. -/
def Time.Date (t : Time) : Int × Int × Int := (t.loc.year, t.loc.month, t.loc.day)
/-- The method `Time.Clock`. -/
def Time.Clock (t : Time) : Int × Int × Int := (t.loc.hour, t.loc.min, t.loc.sec)
/-- The method `Time.Nanosecond`. -/
def Time.Nanosecond (t : Time) : Int := t.loc.nsec

/-- Field ranges of a wall-clock reading: the year is a non-negative Go `int`, the other
fields are in their calendar ranges. -/
def Civil.valid (c : Civil) : Prop :=
  (0 ≤ c.year ∧ c.year < 9223372036854775808) ∧ (1 ≤ c.month ∧ c.month ≤ 12) ∧
  (1 ≤ c.day ∧ c.day ≤ 31) ∧ (0 ≤ c.hour ∧ c.hour ≤ 23) ∧ (0 ≤ c.min ∧ c.min ≤ 59) ∧
  (0 ≤ c.sec ∧ c.sec ≤ 59) ∧ (0 ≤ c.nsec ∧ c.nsec ≤ 999999999)

instance (c : Civil) : Decidable c.valid := by
  unfold Civil.valid; infer_instance

/-- A value `time.Now()` can return: both views have fields in range. -/
def Time.valid (t : Time) : Prop := t.loc.valid ∧ t.utc.valid

instance (t : Time) : Decidable t.valid := by
  unfold Time.valid; infer_instance

/-! ## formatter.go: itoa -/

/-- Two's-complement wrap-around of a 64-bit `int` result. -/
def wrap (x : Int) : Int :=
  (x + 9223372036854775808) % 18446744073709551616 - 9223372036854775808

/-- The conversion `byte(x)`. -/
def byte (x : Int) : Nat := (x % 256).toNat

/-- The body of `itoa` after `var b [20]byte`: the loop `for i >= 10 || wid > 1` and the final
store, with `k = bp + 1` (so `k = 0` is `bp = -1`, where `b[bp]` is out of range and the
program panics). Returns `b[bp:]`. -/
def itoaLoop : Nat → List Nat → Int → Int → Option (List Nat)
  | k, b, i, wid =>
    match k with
    | 0 => none
    | bp + 1 =>
      if i ≥ 10 ∨ wid > 1 then
        let q := Int.tdiv i 10
        itoaLoop bp (b.set bp (byte (wrap (wrap (48 + i) - wrap (q * 10))))) q (wrap (wid - 1))
      else
        some ((b.set bp (byte (wrap (48 + i)))).drop bp)

/-- The function `itoa(buf, i, wid)`: the new contents of `*buf`. -/
def itoa (buf : Bytes) (i : Int) (wid : Int) : Option Bytes :=
  (itoaLoop 20 (List.replicate 20 0) i wid).map (buf ++ ·)

/-! ## formatter.go: textFormatter -/

/-- A `sync.RWMutex` as its callers see it: the number of read locks held and whether the
write lock is held. The zero value is unlocked. -/
structure RWMutex where
  readers : Nat := 0
  writer : Bool := false
deriving DecidableEq, Repr

/-- How a call that takes a lock ends. -/
inductive Step (α : Type) where
  /-- the call returns -/
  | ok (a : α)
  /-- the call waits until another goroutine releases the lock -/
  | blocked
  /-- the run time stops the process with a fatal error -/
  | fatal (msg : String)
deriving DecidableEq, Repr

/-- The method `Lock`: waits while the lock is held for reading or writing. -/
def RWMutex.Lock (m : RWMutex) : Step RWMutex :=
  if m.writer ∨ m.readers ≠ 0 then Step.blocked else Step.ok { m with writer := true }

/-- The method `Unlock`: a run-time error when the lock is not held for writing. -/
def RWMutex.Unlock (m : RWMutex) : Step RWMutex :=
  if m.writer then Step.ok { m with writer := false }
  else Step.fatal "sync: Unlock of unlocked RWMutex"

/-- The method `RLock`: waits while the lock is held for writing. -/
def RWMutex.RLock (m : RWMutex) : Step RWMutex :=
  if m.writer then Step.blocked else Step.ok { m with readers := m.readers + 1 }

/-- The method `RUnlock`: a run-time error when the lock is not held for reading. -/
def RWMutex.RUnlock (m : RWMutex) : Step RWMutex :=
  if m.readers = 0 then Step.fatal "sync: RUnlock of unlocked RWMutex"
  else Step.ok { m with readers := m.readers - 1 }

structure textFormatter where
  mu : RWMutex := {}
  flags : Nat
deriving DecidableEq, Repr

/-- The constructor `NewTextFormatter`. -/
def NewTextFormatter (flags : Nat) : textFormatter := { flags := flags }

/-- The method `Flags`: `f.mu.RLock()`, the result `f.flags` is evaluated, then the deferred
`f.mu.Unlock()` runs. Result: the formatter afterwards and the returned mask. -/
def textFormatter.Flags (f : textFormatter) : Step (textFormatter × Nat) :=
  match f.mu.RLock with
  | Step.ok mu1 =>
    let result := f.flags
    match mu1.Unlock with
    | Step.ok mu2 => Step.ok ({ f with mu := mu2 }, result)
    | Step.blocked => Step.blocked
    | Step.fatal msg => Step.fatal msg
  | Step.blocked => Step.blocked
  | Step.fatal msg => Step.fatal msg

/-- The method `SetFlags`: `f.mu.Lock()`, the assignment `f.flags = flags`, then the
deferred `f.mu.Unlock()`. -/
def textFormatter.SetFlags (f : textFormatter) (flags : Nat) : Step textFormatter :=
  match f.mu.Lock with
  | Step.ok mu1 =>
    let f1 := { f with mu := mu1, flags := flags }
    match f1.mu.Unlock with
    | Step.ok mu2 => Step.ok { f1 with mu := mu2 }
    | Step.blocked => Step.blocked
    | Step.fatal msg => Step.fatal msg
  | Step.blocked => Step.blocked
  | Step.fatal msg => Step.fatal msg

/-- The method `formatHeader`: the new contents of `*buf`; `now` is what `time.Now()` returns
and `g` holds the package variables. Each statement that assigns `*buf` binds a new `buf`. -/
def textFormatter.formatHeader (f : textFormatter) (g : Globals) (now : Time) (buf : Bytes)
    (lvl : Int) (name : Bytes) : Option Bytes := do
  let buf ←
    (if f.flags &&& (Fdate ||| Ftime ||| Fmilliseconds) ≠ 0 then do
      let now := if f.flags &&& Futc ≠ 0 then now.UTC else now
      let buf ←
        (if f.flags &&& Fdate ≠ 0 then do
          let (year, month, day) := now.Date
          let buf := if f.flags &&& Fcolor ≠ 0 then buf ++ g.Cdate else buf
          let buf ← itoa buf year 4
          let buf := buf ++ [47]
          let buf ← itoa buf month 2
          let buf := buf ++ [47]
          let buf ← itoa buf day 2
          let buf := if f.flags &&& Fcolor ≠ 0 then buf ++ creset else buf
          pure (buf ++ [32])
        else pure buf)
      (if f.flags &&& (Ftime ||| Fmilliseconds) ≠ 0 then do
        let (hour, min, sec) := now.Clock
        let buf := if f.flags &&& Fcolor ≠ 0 then buf ++ g.Cdate else buf
        let buf ← itoa buf hour 2
        let buf := buf ++ [58]
        let buf ← itoa buf min 2
        let buf := buf ++ [58]
        let buf ← itoa buf sec 2
        let buf ←
          (if f.flags &&& Fmilliseconds ≠ 0 then
            itoa (buf ++ [46]) (Int.tdiv now.Nanosecond 1000000) 3
          else pure buf)
        let buf := if f.flags &&& Fcolor ≠ 0 then buf ++ creset else buf
        pure (buf ++ [32])
      else pure buf)
    else pure buf)
  let buf :=
    if f.flags &&& Flevel ≠ 0 then
      let buf := if f.flags &&& Fcolor ≠ 0 then buf ++ (g.Mlevel.index lvl).2 else buf
      let buf := buf ++ (g.Mlevel.index lvl).1
      let buf := if f.flags &&& Fcolor ≠ 0 then buf ++ creset else buf
      buf ++ [32]
    else buf
  let buf :=
    if f.flags &&& Fname ≠ 0 ∧ name ≠ [] then
      let buf := if f.flags &&& Fcolor ≠ 0 then buf ++ g.Cname else buf
      let buf := buf ++ name
      let buf := if f.flags &&& Fcolor ≠ 0 then buf ++ creset else buf
      buf ++ [32]
    else buf
  pure buf

/-! ## io.Writer and sync.Pool -/

/-- An `io.Writer` as seen by its caller: the payloads of the `Write` calls made so far, in
call order, and the error each `Write` answers (a function of the calls made before and of
the payload, so that every sequence of outcomes is covered). -/
structure Writer where
  calls : List Bytes
  fail : List Bytes → Bytes → Option String

/-- The method `Write(p)`: the writer afterwards and the returned error (`none` is `nil`);
the returned byte count is discarded by every caller in this package. -/
def Writer.Write (w : Writer) (p : Bytes) : Writer × Option String :=
  ({ w with calls := w.calls ++ [p] }, w.fail w.calls p)

/-- A `bytes.Buffer` used as sink: every write succeeds. -/
def Writer.buffer : Writer := { calls := [], fail := fun _ _ => none }

/-- All bytes the writer has received. -/
def Writer.bytes (w : Writer) : Bytes := w.calls.flatten

/-- The type `bufferPool`: the slices held by the embedded `sync.Pool`, each given by its
contents (its first `len` bytes). -/
structure bufferPool where
  items : List Bytes
deriving DecidableEq, Repr

/-- The function `newBufferPool`: an empty pool whose `New` returns `[]byte{}`. -/
def newBufferPool : bufferPool := { items := [] }

/-- The method `get`: `sync.Pool.Get` removes and returns an item of its choosing, or calls
`New` when it finds none (it may also disregard the items it holds); `pick` is that choice,
an index into the held items, any index past the end standing for `New`. -/
def bufferPool.get (p : bufferPool) (pick : Nat) : Bytes × bufferPool :=
  match p.items.get? pick with
  | some b => (b, { items := p.items.eraseIdx pick })
  | none => ([], p)

/-- The method `put`. -/
def bufferPool.put (p : bufferPool) (b : Bytes) : bufferPool := { items := b :: p.items }

/-- What one call obtains from outside the package. -/
structure Runtime where
  /-- result of `time.Now()` -/
  now : Time
  /-- choice made by `sync.Pool.Get` -/
  pick : Nat
  /-- the stack trace `runtime.Stack` formats for the calling goroutine -/
  stack : Bytes
  /-- the function `fmt.Sprintf`, operands given as for `Sprintln` -/
  Sprintf : Bytes → List Bytes → Bytes

/-- The method `Format`. The deferred `pool.put(buf)` has its argument evaluated at the
`defer` statement, so it returns the slice exactly as `get` delivered it. Result: the pool and
the writer afterwards and the returned error. -/
def textFormatter.Format (f : textFormatter) (g : Globals) (rt : Runtime) (pool : bufferPool)
    (w : Writer) (lvl : Int) (name : Bytes) (msg : Bytes) :
    Option (bufferPool × Writer × Option String) := do
  let (buf0, pool) := pool.get rt.pick
  let mut buf ← f.formatHeader g rt.now buf0 lvl name
  buf := buf ++ msg
  if msg = [] ∨ msg.getLast? ≠ some 10 then
    buf := buf ++ [10]
  let (w, err) := w.Write buf
  return (pool.put buf0, w, err)

/-! ## loggie.go: defaultLogger -/

/-- The function `fmt.Sprintln` of the Go standard library: the operands in their default
format, separated by single spaces, followed by a newline. An operand is given by its
default-format text (for a string operand, the string itself). -/
def Sprintln (v : List Bytes) : Bytes := List.intercalate [32] v ++ [10]

/-- The type `defaultLogger`. The formatter and the writer it refers to are held in place.
The mutex `mu` is not represented: calls are executed one at a time, each `Lock` is
followed by its deferred `Unlock`. -/
structure defaultLogger where
  name : Bytes
  level : Int
  f : textFormatter
  w : Writer

/-- The state a logger call acts on: the package variables, the package-level `pool` and
the logger. -/
structure State where
  vars : Globals
  pool : bufferPool
  l : defaultLogger

/-- How a call ends. -/
inductive Outcome where
  /-- normal return -/
  | returned
  /-- the builtin `panic(v)` with a string value -/
  | panicked (v : Bytes)
  /-- the call `os.Exit(code)` -/
  | exited (code : Int)
deriving DecidableEq, Repr

/-- The function `NewLogger`; the `level` field is left at its zero value. -/
def NewLogger (w : Writer) (name : Bytes) (f : textFormatter) : defaultLogger :=
  { name := name, level := 0, f := f, w := w }

/-- Common part of `write` and `writef` once `msg` is built: `l.f.Format(l.w, lvl, l.name,
msg)`; returns `msg` and the error. -/
def defaultLogger.emit (s : State) (rt : Runtime) (lvl : Int) (msg : Bytes) :
    Option (State × Bytes × Option String) := do
  let (pool, w, err) ← s.l.f.Format s.vars rt s.pool s.l.w lvl s.l.name msg
  return ({ s with pool := pool, l := { s.l with w := w } }, msg, err)

/-- The method `write`. -/
def defaultLogger.write (s : State) (rt : Runtime) (lvl : Int) (v : List Bytes) :
    Option (State × Bytes × Option String) :=
  let msg := Sprintln v
  defaultLogger.emit s rt lvl msg

/-- The method `writef`. -/
def defaultLogger.writef (s : State) (rt : Runtime) (lvl : Int) (format : Bytes)
    (v : List Bytes) : Option (State × Bytes × Option String) :=
  let msg := rt.Sprintf format v
  defaultLogger.emit s rt lvl msg

/-- The method `writeStack`: `runtime.Stack` fills a buffer of `1024*8` bytes, truncating
the trace to that size; the error of the write is dropped. -/
def defaultLogger.writeStack (s : State) (rt : Runtime) (_lvl : Int) : State :=
  let stack := rt.stack.take (1024 * 8)
  { s with l := { s.l with w := (s.l.w.Write stack).1 } }

/-- The method `Print`. -/
def defaultLogger.Print (s : State) (rt : Runtime) (lvl : Int) (v : List Bytes) :
    Option State := do
  let mut s := s
  if lvl ≥ s.l.level then
    let (s1, _, _) ← defaultLogger.write s rt lvl v
    s := s1
    if lvl > Lwarning then
      s := defaultLogger.writeStack s rt lvl
  return s

/-- The method `Printf`. -/
def defaultLogger.Printf (s : State) (rt : Runtime) (lvl : Int) (format : Bytes)
    (v : List Bytes) : Option State := do
  let mut s := s
  if lvl ≥ s.l.level then
    let (s1, _, _) ← defaultLogger.writef s rt lvl format v
    s := s1
    if lvl > Lwarning then
      s := defaultLogger.writeStack s rt lvl
  return s

/-- The method `Panic`; `msg` starts as the zero value, the empty string. -/
def defaultLogger.Panic (s : State) (rt : Runtime) (v : List Bytes) :
    Option (State × Outcome) := do
  let mut s := s
  let mut msg : Bytes := []
  if s.l.level ≤ Lpanic then
    let (s1, m, _) ← defaultLogger.write s rt Lpanic v
    s := s1
    msg := m
  return (s, Outcome.panicked msg)

/-- The method `Panicf`. -/
def defaultLogger.Panicf (s : State) (rt : Runtime) (format : Bytes) (v : List Bytes) :
    Option (State × Outcome) := do
  let mut s := s
  let mut msg : Bytes := []
  if s.l.level ≤ Lpanic then
    let (s1, m, _) ← defaultLogger.writef s rt Lpanic format v
    s := s1
    msg := m
  return (s, Outcome.panicked msg)

/-- The method `Level`. -/
def defaultLogger.Level (s : State) : Int := s.l.level

/-- The method `SetLevel`. -/
def defaultLogger.SetLevel (s : State) (lvl : Int) : State :=
  { s with l := { s.l with level := lvl } }


/-- The method `Debug`. -/
def defaultLogger.Debug (s : State) (rt : Runtime) (v : List Bytes) : Option State :=
  defaultLogger.Print s rt Ldebug v

/-- The method `Debugf`. -/
def defaultLogger.Debugf (s : State) (rt : Runtime) (format : Bytes) (v : List Bytes) :
    Option State :=
  defaultLogger.Printf s rt Ldebug format v

/-- The method `Info`. -/
def defaultLogger.Info (s : State) (rt : Runtime) (v : List Bytes) : Option State :=
  defaultLogger.Print s rt Linfo v

/-- The method `Infof`. -/
def defaultLogger.Infof (s : State) (rt : Runtime) (format : Bytes) (v : List Bytes) :
    Option State :=
  defaultLogger.Printf s rt Linfo format v

/-- The method `Warning`. -/
def defaultLogger.Warning (s : State) (rt : Runtime) (v : List Bytes) : Option State :=
  defaultLogger.Print s rt Lwarning v

/-- The method `Warningf`. -/
def defaultLogger.Warningf (s : State) (rt : Runtime) (format : Bytes) (v : List Bytes) :
    Option State :=
  defaultLogger.Printf s rt Lwarning format v

/-- The method `Error`. -/
def defaultLogger.Error (s : State) (rt : Runtime) (v : List Bytes) : Option State :=
  defaultLogger.Print s rt Lerror v

/-- The method `Errorf`. -/
def defaultLogger.Errorf (s : State) (rt : Runtime) (format : Bytes) (v : List Bytes) :
    Option State :=
  defaultLogger.Printf s rt Lerror format v

/-- The method `Fatal`: `l.Print(Lfatal, v...)` and then `os.Exit(1)`. -/
def defaultLogger.Fatal (s : State) (rt : Runtime) (v : List Bytes) :
    Option (State × Outcome) := do
  let s ← defaultLogger.Print s rt Lfatal v
  return (s, Outcome.exited 1)

/-- The method `Fatalf`. -/
def defaultLogger.Fatalf (s : State) (rt : Runtime) (format : Bytes) (v : List Bytes) :
    Option (State × Outcome) := do
  let s ← defaultLogger.Printf s rt Lfatal format v
  return (s, Outcome.exited 1)

/-! ## loggie.go: the package-level functions

The variable `Default` is the logger of the state the function is applied to. -/

/-- The function `Print`. -/
def Print (s : State) (rt : Runtime) (lvl : Int) (v : List Bytes) : Option State :=
  defaultLogger.Print s rt lvl v

/-- The function `Printf`. -/
def Printf (s : State) (rt : Runtime) (lvl : Int) (format : Bytes) (v : List Bytes) :
    Option State :=
  defaultLogger.Printf s rt lvl format v

/-- The function `Debug`. -/
def Debug (s : State) (rt : Runtime) (v : List Bytes) : Option State :=
  defaultLogger.Debug s rt v

/-- The function `Debugf`. -/
def Debugf (s : State) (rt : Runtime) (format : Bytes) (v : List Bytes) : Option State :=
  defaultLogger.Debugf s rt format v

/-- The function `Info`: its body is `Default.Debug(v...)`. -/
def Info (s : State) (rt : Runtime) (v : List Bytes) : Option State :=
  defaultLogger.Debug s rt v

/-- The function `Infof`: its body is `Default.Debugf(format, v...)`. -/
def Infof (s : State) (rt : Runtime) (format : Bytes) (v : List Bytes) : Option State :=
  defaultLogger.Debugf s rt format v

/-- The function `Warning`: its body is `Default.Debug(v...)`. -/
def Warning (s : State) (rt : Runtime) (v : List Bytes) : Option State :=
  defaultLogger.Debug s rt v

/-- The function `Warningf`: its body is `Default.Debugf(format, v...)`. -/
def Warningf (s : State) (rt : Runtime) (format : Bytes) (v : List Bytes) : Option State :=
  defaultLogger.Debugf s rt format v

/-- The function `Error`: its body is `Default.Debug(v...)`. -/
def Error (s : State) (rt : Runtime) (v : List Bytes) : Option State :=
  defaultLogger.Debug s rt v

/-- The function `Errorf`: its body is `Default.Debugf(format, v...)`. -/
def Errorf (s : State) (rt : Runtime) (format : Bytes) (v : List Bytes) : Option State :=
  defaultLogger.Debugf s rt format v

/-- The function `Panic`. -/
def Panic (s : State) (rt : Runtime) (v : List Bytes) : Option (State × Outcome) :=
  defaultLogger.Panic s rt v

/-- The function `Panicf`. -/
def Panicf (s : State) (rt : Runtime) (format : Bytes) (v : List Bytes) :
    Option (State × Outcome) :=
  defaultLogger.Panicf s rt format v

/-- The function `Fatal`. -/
def Fatal (s : State) (rt : Runtime) (v : List Bytes) : Option (State × Outcome) :=
  defaultLogger.Fatal s rt v

/-- The function `Fatalf`. -/
def Fatalf (s : State) (rt : Runtime) (format : Bytes) (v : List Bytes) :
    Option (State × Outcome) :=
  defaultLogger.Fatalf s rt format v

/-- The function `Level`. -/
def Level (s : State) : Int := defaultLogger.Level s

/-- The function `SetLevel`. -/
def SetLevel (s : State) (lvl : Int) : State := defaultLogger.SetLevel s lvl

/-! ## Decimal rendering, stated independently of itoa -/

/-- The `k` low-order decimal digits of `n` as ASCII characters, most significant first. -/
def lastDigits : Nat → Nat → Bytes
  | 0, _ => []
  | k + 1, n => lastDigits k (n / 10) ++ [48 + n % 10]

/-- Digit count with fuel `f` (enough when `n ≤ f`). -/
def numDigitsAux : Nat → Nat → Nat
  | 0, _ => 1
  | f + 1, n => if n < 10 then 1 else numDigitsAux f (n / 10) + 1

/-- Number of decimal digits of `n`; `1` for `n = 0`. -/
def numDigits (n : Nat) : Nat := numDigitsAux n n

/-- Decimal digits of `n`, left-padded with `'0'` to at least `w` characters. -/
def zpad (w n : Nat) : Bytes := lastDigits (max w (numDigits n)) n

/-- Number of characters itoa produces. -/
def itoaWidth (n : Nat) (wid : Int) : Nat := max wid.toNat (numDigits n)


/-! ## The header, block by block -/

/-- A field wrapped as color escape, content, reset escape when the Color flag is set; the
bare content otherwise. -/
def colorize (flags : Nat) (color body : Bytes) : Bytes :=
  if flags &&& Fcolor ≠ 0 then color ++ body ++ creset else body

/-- The calendar and clock fields the header shows: those of UTC when the UTC flag is set. -/
def shown (flags : Nat) (now : Time) : Civil :=
  if flags &&& Futc ≠ 0 then now.utc else now.loc

/-- Text `YYYY/MM/DD`. -/
def dateText (c : Civil) : Bytes :=
  zpad 4 c.year.toNat ++ [47] ++ zpad 2 c.month.toNat ++ [47] ++ zpad 2 c.day.toNat

/-- Text `HH:MM:SS`. -/
def clockText (c : Civil) : Bytes :=
  zpad 2 c.hour.toNat ++ [58] ++ zpad 2 c.min.toNat ++ [58] ++ zpad 2 c.sec.toNat

/-- The millisecond field: three digits of the whole milliseconds of the sub-second part. -/
def milliText (c : Civil) : Bytes := zpad 3 (c.nsec.toNat / 1000000)

/-- Date block: the date in color `color` and one space when Date is set, else nothing. -/
def dateBlock (flags : Nat) (color : Bytes) (now : Time) : Bytes :=
  if flags &&& Fdate ≠ 0 then colorize flags color (dateText (shown flags now)) ++ [32] else []

/-- Time block: the clock (with `.mmm` when Milliseconds is set) in color `color` and one
space when Time or Milliseconds is set, else nothing. -/
def timeBlock (flags : Nat) (color : Bytes) (now : Time) : Bytes :=
  if flags &&& (Ftime ||| Fmilliseconds) ≠ 0 then
    colorize flags color
      (clockText (shown flags now) ++
        (if flags &&& Fmilliseconds ≠ 0 then [46] ++ milliText (shown flags now) else []))
      ++ [32]
  else []

/-- Level block: the label of `lvl` in its table color and one space when Level is set. -/
def levelBlock (flags : Nat) (table : LevelTable) (lvl : Int) : Bytes :=
  if flags &&& Flevel ≠ 0 then
    colorize flags (table.index lvl).2 (table.index lvl).1 ++ [32]
  else []

/-- Name block: the name in color `color` and one space when Name is set and the name is
not empty. -/
def nameBlock (flags : Nat) (color : Bytes) (name : Bytes) : Bytes :=
  if flags &&& Fname ≠ 0 ∧ name ≠ [] then colorize flags color name ++ [32] else []

/-- The newline `Format` appends: one when the message is empty or does not end in a
newline, none otherwise. -/
def newlineFor (msg : Bytes) : Bytes :=
  if msg = [] ∨ msg.getLast? ≠ some 10 then [10] else []

/-- Every buffer held by the pool has length zero. -/
def bufferPool.clean (p : bufferPool) : Prop := ∀ b ∈ p.items, b = []

instance (p : bufferPool) : Decidable p.clean := by
  unfold bufferPool.clean; infer_instance

/-- What `formatHeader` appends, in closed form: date, time, level and name blocks, in that
order; the time block is opened with the same color variable as the date block, `Cdate`,
as in the source. -/
def headerBytes (flags : Nat) (g : Globals) (now : Time) (lvl : Int) (name : Bytes) : Bytes :=
  dateBlock flags g.Cdate now ++ timeBlock flags g.Cdate now ++
    levelBlock flags g.Mlevel lvl ++ nameBlock flags g.Cname name

/-- The line `Format` hands to the writer, in closed form. -/
def lineBytes (flags : Nat) (g : Globals) (now : Time) (lvl : Int) (name msg : Bytes) : Bytes :=
  headerBytes flags g now lvl name ++ msg ++ newlineFor msg

/-- The payloads handed to the writer, read off the result of a `Format` call. -/
def written (r : Option (bufferPool × Writer × Option String)) : Option (List Bytes) :=
  r.map (fun x => x.2.1.calls)

/-- The byte sequence ends in two newline characters. -/
def endsInTwoNewlines (b : Bytes) : Prop := ∃ p, b = p ++ [10, 10]

/-- ASCII character of the decimal digit of `n` at position `10 ^ k`. -/
def digitAt (n k : Nat) : Nat := 48 + n / 10 ^ k % 10

/-- Two-digit zero-padded decimal. -/
def dec2 (n : Nat) : Bytes := [digitAt n 1, digitAt n 0]

/-- Three-digit zero-padded decimal. -/
def dec3 (n : Nat) : Bytes := [digitAt n 2, digitAt n 1, digitAt n 0]

/-- Four-digit zero-padded decimal. -/
def dec4 (n : Nat) : Bytes := [digitAt n 3, digitAt n 2, digitAt n 1, digitAt n 0]

/-- Numeric value of a string of ASCII decimal digits. -/
def decValue (b : Bytes) : Nat := b.foldl (fun a d => 10 * a + (d - 48)) 0

/-- The three-letter labels as the documentation lists them: DBG, INF, WRN, ERR, FTL, PAN
for Debug, Info, Warning, Error, Fatal, Panic. -/
def shortLabel (lvl : Int) : Bytes :=
  if lvl = Ldebug then ascii "DBG"
  else if lvl = Linfo then ascii "INF"
  else if lvl = Lwarning then ascii "WRN"
  else if lvl = Lerror then ascii "ERR"
  else if lvl = Lfatal then ascii "FTL"
  else if lvl = Lpanic then ascii "PAN"
  else []

/-! ## Sample inputs -/

/-- A clock reading: 2024-03-09 07:05:01.001999999 local, 2024-03-08 23:05:01 UTC. -/
def sampleTime : Time :=
  { loc := { year := 2024, month := 3, day := 9, hour := 7, min := 5, sec := 1,
             nsec := 1999999 },
    utc := { year := 2024, month := 3, day := 8, hour := 23, min := 5, sec := 1,
             nsec := 1999999 } }

/-- A run-time environment; its `Sprintf` returns the format string unchanged, which is what
`fmt.Sprintf` does for a format without verbs and no operands. -/
def sampleRuntime : Runtime :=
  { now := sampleTime, pick := 0, stack := ascii "goroutine 1 [running]:\n",
    Sprintf := fun format _ => format }

/-- A writer whose every `Write` fails. -/
def Writer.broken : Writer := { calls := [], fail := fun _ _ => some "write failed" }

/-- A fresh program state: declared package variables, empty pool, a logger named `svc`
with the given mask, threshold and writer. -/
def sampleState (flags : Nat) (level : Int) (w : Writer) : State :=
  { vars := Globals.declared, pool := newBufferPool,
    l := { name := ascii "svc", level := level, f := NewTextFormatter flags, w := w } }

/-- One call of `Format`: the formatter, the package variables, what the run time supplies,
and the arguments. -/
structure FormatCall where
  f : textFormatter
  g : Globals
  rt : Runtime
  lvl : Int
  name : Bytes
  msg : Bytes

/-- A sequence of `Format` calls on the package pool and one writer, one after the other;
the pool and the writer after the last call. -/
def formatAll : bufferPool → Writer → List FormatCall → Option (bufferPool × Writer)
  | pool, w, [] => some (pool, w)
  | pool, w, c :: cs =>
    match c.f.Format c.g c.rt pool w c.lvl c.name c.msg with
    | none => none
    | some (pool1, w1, _) => formatAll pool1 w1 cs

/-- A line whose level block shows `label` in color `color`: date block, time block, the
label (colorized when Color is set) and one space, name block, message, newline if
needed. -/
def labelledLine (flags : Nat) (g : Globals) (now : Time) (label color name msg : Bytes) :
    Bytes :=
  dateBlock flags g.Cdate now ++ timeBlock flags g.Cdate now ++
    (colorize flags color label ++ [32]) ++ nameBlock flags g.Cname name ++ msg ++
    newlineFor msg

/-! # Theorems -/

/-! ## Decimal rendering: auxiliary facts -/

theorem numDigitsAux_fuel : ∀ (f n f' : Nat), n ≤ f → n ≤ f' →
    numDigitsAux f n = numDigitsAux f' n := by
  intro f
  induction f with
  | zero =>
    intro n f' h _
    have hn : n = 0 := by omega
    subst hn
    cases f' <;> simp [numDigitsAux]
  | succ f ih =>
    intro n f' h h'
    cases f' with
    | zero =>
      have hn : n = 0 := by omega
      subst hn
      simp [numDigitsAux]
    | succ f' =>
      simp only [numDigitsAux]
      split
      · rfl
      · rw [ih (n / 10) f' (by omega) (by omega)]

theorem numDigits_small {n : Nat} (h : n < 10) : numDigits n = 1 := by
  unfold numDigits
  cases n with
  | zero => rfl
  | succ m => simp [numDigitsAux, h]

theorem numDigits_step {n : Nat} (h : 10 ≤ n) : numDigits n = numDigits (n / 10) + 1 := by
  unfold numDigits
  cases n with
  | zero => omega
  | succ m =>
    simp only [numDigitsAux]
    rw [if_neg (by omega), numDigitsAux_fuel m ((m + 1) / 10) ((m + 1) / 10) (by omega) (le_refl _)]

theorem numDigits_pos (n : Nat) : 1 ≤ numDigits n := by
  by_cases h : n < 10
  · rw [numDigits_small h]
  · rw [numDigits_step (by omega)]; omega

theorem numDigits_le : ∀ (k n : Nat), 1 ≤ k → n < 10 ^ k → numDigits n ≤ k := by
  intro k
  induction k with
  | zero => intro n h; omega
  | succ k ih =>
    intro n _ hn
    by_cases h : n < 10
    · rw [numDigits_small h]; omega
    · rw [numDigits_step (by omega)]
      have hk : 1 ≤ k := by
        rcases Nat.eq_zero_or_pos k with h0 | h0
        · subst h0; simp at hn; omega
        · exact h0
      have : n / 10 < 10 ^ k := by
        rw [Nat.div_lt_iff_lt_mul (by decide)]
        rw [pow_succ] at hn; exact hn
      have := ih (n / 10) hk this
      omega

/-! ## itoa computes the padded decimal -/

theorem wrap_id {x : Int} (h1 : -9223372036854775808 ≤ x) (h2 : x < 9223372036854775808) :
    wrap x = x := by
  unfold wrap; omega

theorem byte_wrap (x : Int) : byte (wrap x) = byte x := by
  unfold byte wrap
  congr 1
  omega

theorem itoa_digit (n : Nat) (h : (n : Int) < 9223372036854775808) :
    byte (wrap (wrap (48 + (n : Int)) - wrap (Int.tdiv (n : Int) 10 * 10))) = 48 + n % 10 := by
  rw [Int.tdiv_eq_ediv (by omega) (by decide)]
  have e1 : wrap ((n : Int) / 10 * 10) = (n : Int) / 10 * 10 := by unfold wrap; omega
  have e2 : ∀ x : Int, wrap x % 256 = x % 256 := by intro x; unfold wrap; omega
  unfold byte
  rw [e2, Int.sub_emod, e2, e1]
  omega

theorem itoa_last (n : Nat) (h : n < 10) : byte (wrap (48 + (n : Int))) = 48 + n := by
  rw [byte_wrap]; unfold byte; omega

theorem drop_set_self : ∀ (b : List Nat) (k x : Nat), k < b.length →
    (b.set k x).drop k = x :: b.drop (k + 1) := by
  intro b
  induction b with
  | nil => intro k x h; simp at h
  | cons a t ih =>
    intro k x h
    cases k with
    | zero => simp
    | succ k =>
      simp only [List.set_cons_succ, List.drop_succ_cons]
      exact ih k x (by simpa using h)

theorem itoaLoop_spec : ∀ (k : Nat) (b : List Nat) (n : Nat) (wid : Int),
    k ≤ b.length → (n : Int) < 9223372036854775808 →
    -9223372036854775808 + (numDigits n : Int) - 1 ≤ wid → wid < 9223372036854775808 →
    itoaWidth n wid ≤ k →
    itoaLoop k b (n : Int) wid = some (lastDigits (itoaWidth n wid) n ++ b.drop k) := by
  intro k
  induction k with
  | zero =>
    intro b n wid _ _ _ _ hw
    have := numDigits_pos n
    unfold itoaWidth at hw
    omega
  | succ bp ih =>
    intro b n wid hb hn hlo hhi hw
    unfold itoaLoop
    simp only
    by_cases hc : (n : Int) ≥ 10 ∨ wid > 1
    · rw [if_pos hc]
      have hq : Int.tdiv (n : Int) 10 = ((n / 10 : Nat) : Int) := by
        rw [Int.tdiv_eq_ediv (by omega) (by decide)]; omega
      have hpos := numDigits_pos n
      have hwid : wrap (wid - 1) = wid - 1 := by
        by_cases h10 : n < 10
        · exact wrap_id (by omega) (by omega)
        · have := numDigits_step (show 10 ≤ n by omega)
          have := numDigits_pos (n / 10)
          exact wrap_id (by omega) (by omega)
      have hlo2 : -9223372036854775808 + (numDigits (n / 10) : Int) - 1 ≤ wid - 1 := by
        by_cases h10 : n < 10
        · rw [numDigits_small (show n / 10 < 10 by omega)]
          omega
        · have := numDigits_step (show 10 ≤ n by omega)
          omega
      rw [itoa_digit n hn, hq, hwid]
      have hstep : itoaWidth n wid = itoaWidth (n / 10) (wid - 1) + 1 := by
        unfold itoaWidth
        by_cases h10 : n < 10
        · have hw1 : wid > 1 := by omega
          rw [numDigits_small h10, numDigits_small (show n / 10 < 10 by omega)]
          omega
        · rw [numDigits_step (show 10 ≤ n by omega)]
          omega
      rw [ih (b.set bp (48 + n % 10)) (n / 10) (wid - 1) (by simp; omega) (by omega)
        hlo2 (by omega) (by omega)]
      rw [drop_set_self b bp _ (by omega), hstep]
      simp [lastDigits]
    · rw [if_neg hc]
      have h10 : n < 10 := by omega
      have hw1 : itoaWidth n wid = 1 := by
        unfold itoaWidth
        rw [numDigits_small h10]; omega
      rw [itoa_last n h10, drop_set_self b bp _ (by omega), hw1]
      simp [lastDigits]
      omega

theorem itoa_spec (buf : Bytes) (n : Nat) (wid : Int) (hn : (n : Int) < 9223372036854775808)
    (hlo : -9223372036854775808 + (numDigits n : Int) - 1 ≤ wid) (hw : itoaWidth n wid ≤ 20) :
    itoa buf (n : Int) wid = some (buf ++ zpad wid.toNat n) := by
  unfold itoa
  have hhi : wid < 9223372036854775808 := by unfold itoaWidth at hw; omega
  rw [itoaLoop_spec 20 _ n wid (by simp) hn (by omega) hhi hw]
  simp [zpad, itoaWidth]


theorem numDigits_int64 (n : Nat) (h : (n : Int) < 9223372036854775808) : numDigits n ≤ 19 :=
  numDigits_le 19 n (by decide) (by norm_num; omega)

theorem itoa_ok (buf : Bytes) (i wid : Int) (h0 : 0 ≤ i) (hi : i < 9223372036854775808)
    (hlo : 0 ≤ wid) (hhi : wid ≤ 20) :
    itoa buf i wid = some (buf ++ zpad wid.toNat i.toNat) := by
  have hcast : i = ((i.toNat : Nat) : Int) := by omega
  have hn : ((i.toNat : Nat) : Int) < 9223372036854775808 := by omega
  have h19 := numDigits_int64 i.toNat hn
  have := itoa_spec buf i.toNat wid hn (by omega) (by unfold itoaWidth; omega)
  rw [← hcast] at this
  exact this

theorem flag_mono {m a b : Nat} (hab : b &&& a = a) (h : m &&& a ≠ 0) : m &&& b ≠ 0 := by
  intro hb
  apply h
  rw [← hab, ← Nat.and_assoc, hb]
  simp

theorem civil_itoa (c : Civil) (hv : c.valid) :
    (∀ b, itoa b c.year 4 = some (b ++ zpad 4 c.year.toNat)) ∧
    (∀ b, itoa b c.month 2 = some (b ++ zpad 2 c.month.toNat)) ∧
    (∀ b, itoa b c.day 2 = some (b ++ zpad 2 c.day.toNat)) ∧
    (∀ b, itoa b c.hour 2 = some (b ++ zpad 2 c.hour.toNat)) ∧
    (∀ b, itoa b c.min 2 = some (b ++ zpad 2 c.min.toNat)) ∧
    (∀ b, itoa b c.sec 2 = some (b ++ zpad 2 c.sec.toNat)) ∧
    (∀ b, itoa b (Int.tdiv c.nsec 1000000) 3 = some (b ++ zpad 3 (c.nsec.toNat / 1000000))) := by
  obtain ⟨⟨hy0, hy1⟩, ⟨hmo0, hmo1⟩, ⟨hd0, hd1⟩, ⟨hh0, hh1⟩, ⟨hmi0, hmi1⟩, ⟨hs0, hs1⟩,
    ⟨hn0, hn1⟩⟩ := hv
  have hdiv : Int.tdiv c.nsec 1000000 = ((c.nsec.toNat / 1000000 : Nat) : Int) := by
    rw [Int.tdiv_eq_ediv hn0 (by decide)]
    omega
  refine ⟨?_, ?_, ?_, ?_, ?_, ?_, ?_⟩ <;> intro b
  · exact itoa_ok b _ 4 hy0 hy1 (by decide) (by decide)
  · exact itoa_ok b _ 2 (by omega) (by omega) (by decide) (by decide)
  · exact itoa_ok b _ 2 (by omega) (by omega) (by decide) (by decide)
  · exact itoa_ok b _ 2 (by omega) (by omega) (by decide) (by decide)
  · exact itoa_ok b _ 2 (by omega) (by omega) (by decide) (by decide)
  · exact itoa_ok b _ 2 (by omega) (by omega) (by decide) (by decide)
  · rw [hdiv]
    have h := itoa_ok b ((c.nsec.toNat / 1000000 : Nat) : Int) 3 (by omega) (by omega)
      (by decide) (by decide)
    rw [Int.toNat_ofNat] at h
    exact h

theorem ite_some_append {c : Prop} [Decidable c] (b x : Bytes) :
    (if c then some (b ++ x) else some b) = some (b ++ if c then x else []) := by
  split <;> simp

theorem formatHeader_eq (f : textFormatter) (g : Globals) (now : Time) (buf : Bytes)
    (lvl : Int) (name : Bytes) (hv : now.valid) :
    f.formatHeader g now buf lvl name =
      some (buf ++ dateBlock f.flags g.Cdate now ++ timeBlock f.flags g.Cdate now ++
        levelBlock f.flags g.Mlevel lvl ++ nameBlock f.flags g.Cname name) := by
  have k1 : f.flags &&& Fdate ≠ 0 → f.flags &&& (Fdate ||| Ftime ||| Fmilliseconds) ≠ 0 :=
    flag_mono (by decide)
  have k2 : f.flags &&& (Ftime ||| Fmilliseconds) ≠ 0 →
      f.flags &&& (Fdate ||| Ftime ||| Fmilliseconds) ≠ 0 := flag_mono (by decide)
  have hsh : (if f.flags &&& Futc ≠ 0 then now.UTC else now).loc = shown f.flags now := by
    unfold shown Time.UTC; split <;> rfl
  have hc : (shown f.flags now).valid := by
    unfold shown; split
    · exact hv.2
    · exact hv.1
  obtain ⟨e1, e2, e3, e4, e5, e6, e7⟩ := civil_itoa _ hc
  unfold textFormatter.formatHeader dateBlock timeBlock levelBlock nameBlock colorize
    dateText clockText milliText
  simp only [Time.Date, Time.Clock, Time.Nanosecond, hsh]
  generalize shown f.flags now = c at *
  by_cases c7 : f.flags &&& (Fdate ||| Ftime ||| Fmilliseconds) ≠ 0
  · by_cases cc : f.flags &&& Fcolor ≠ 0 <;>
    simp only [if_pos c7, if_pos cc, if_neg cc, e1, e2, e3, e4, e5, e6, e7, Option.bind_eq_bind,
      Option.some_bind, Option.pure_def, bind, pure, List.append_assoc, ite_some_append] <;>
    by_cases cl : f.flags &&& Flevel ≠ 0 <;>
    by_cases cn : (f.flags &&& Fname ≠ 0 ∧ name ≠ []) <;>
    simp [cl, cn]
  · have cd : ¬ f.flags &&& Fdate ≠ 0 := fun h => c7 (k1 h)
    have ct : ¬ f.flags &&& (Ftime ||| Fmilliseconds) ≠ 0 := fun h => c7 (k2 h)
    by_cases cc : f.flags &&& Fcolor ≠ 0 <;>
    simp only [if_neg c7, if_neg cd, if_neg ct, if_pos cc, if_neg cc, Option.bind_eq_bind,
      Option.some_bind, Option.pure_def, bind, pure, List.append_assoc, ite_some_append] <;>
    by_cases cl : f.flags &&& Flevel ≠ 0 <;>
    by_cases cn : (f.flags &&& Fname ≠ 0 ∧ name ≠ []) <;>
    simp [cl, cn]


theorem pool_get_clean (p : bufferPool) (pick : Nat) (hp : p.clean) :
    (p.get pick).1 = [] ∧ (p.get pick).2.clean := by
  unfold bufferPool.get
  cases h : p.items.get? pick with
  | none => exact ⟨rfl, hp⟩
  | some b =>
    refine ⟨hp b (List.get?_mem h), ?_⟩
    intro x hx
    exact hp x (List.mem_of_mem_eraseIdx hx)

theorem Format_eq (f : textFormatter) (g : Globals) (rt : Runtime) (pool : bufferPool)
    (w : Writer) (lvl : Int) (name msg : Bytes) (hv : rt.now.valid) (hp : pool.clean) :
    f.Format g rt pool w lvl name msg =
      some ((pool.get rt.pick).2.put [],
        (w.Write (lineBytes f.flags g rt.now lvl name msg)).1,
        (w.Write (lineBytes f.flags g rt.now lvl name msg)).2) := by
  have h0 := (pool_get_clean pool rt.pick hp).1
  unfold textFormatter.Format
  simp only [formatHeader_eq f g rt.now _ lvl name hv, h0]
  unfold lineBytes headerBytes newlineFor
  by_cases hm : msg = [] ∨ msg.getLast? ≠ some 10 <;> simp [hm]

theorem Format_clean (p : bufferPool) (pick : Nat) (hp : p.clean) :
    ((p.get pick).2.put []).clean := by
  intro x hx
  simp only [bufferPool.put, List.mem_cons] at hx
  rcases hx with h | h
  · exact h
  · exact (pool_get_clean p pick hp).2 x h

/-! ## The logger's write path in closed form -/

/-- State after a successful pass through `emit`: the pool has the buffer back, the writer
has received `line`. -/
theorem emit_eq (s : State) (rt : Runtime) (lvl : Int) (msg : Bytes) (hv : rt.now.valid)
    (hp : s.pool.clean) :
    defaultLogger.emit s rt lvl msg =
      some ({ s with
                pool := (s.pool.get rt.pick).2.put [],
                l := { s.l with
                  w := (s.l.w.Write
                    (lineBytes s.l.f.flags s.vars rt.now lvl s.l.name msg)).1 } },
        msg,
        (s.l.w.Write (lineBytes s.l.f.flags s.vars rt.now lvl s.l.name msg)).2) := by
  unfold defaultLogger.emit
  rw [Format_eq s.l.f s.vars rt s.pool s.l.w lvl s.l.name msg hv hp]
  rfl

theorem lineBytes_ne_nil (flags : Nat) (g : Globals) (now : Time) (lvl : Int)
    (name msg : Bytes) : lineBytes flags g now lvl name msg ≠ [] := by
  unfold lineBytes newlineFor
  by_cases hm : msg = []
  · simp [hm]
  · simp [hm]

theorem Print_eq (s : State) (rt : Runtime) (lvl : Int) (v : List Bytes) (hv : rt.now.valid)
    (hp : s.pool.clean) :
    ∃ s', defaultLogger.Print s rt lvl v = some s' ∧
      s'.l.w.calls = s.l.w.calls ++
        (if lvl ≥ s.l.level then
          lineBytes s.l.f.flags s.vars rt.now lvl s.l.name (Sprintln v) ::
            (if lvl > Lwarning then [rt.stack.take 8192] else [])
        else []) := by
  unfold defaultLogger.Print defaultLogger.write
  by_cases hg : lvl ≥ s.l.level
  · by_cases hs : lvl > Lwarning
    · simp [hg, hs, emit_eq s rt lvl _ hv hp, defaultLogger.writeStack, Writer.Write]
    · simp [hg, hs, emit_eq s rt lvl _ hv hp, defaultLogger.writeStack, Writer.Write]
  · simp [hg]

theorem Printf_eq (s : State) (rt : Runtime) (lvl : Int) (format : Bytes) (v : List Bytes)
    (hv : rt.now.valid) (hp : s.pool.clean) :
    ∃ s', defaultLogger.Printf s rt lvl format v = some s' ∧
      s'.l.w.calls = s.l.w.calls ++
        (if lvl ≥ s.l.level then
          lineBytes s.l.f.flags s.vars rt.now lvl s.l.name (rt.Sprintf format v) ::
            (if lvl > Lwarning then [rt.stack.take 8192] else [])
        else []) := by
  unfold defaultLogger.Printf defaultLogger.writef
  by_cases hg : lvl ≥ s.l.level
  · by_cases hs : lvl > Lwarning
    · simp [hg, hs, emit_eq s rt lvl _ hv hp, defaultLogger.writeStack, Writer.Write]
    · simp [hg, hs, emit_eq s rt lvl _ hv hp, defaultLogger.writeStack, Writer.Write]
  · simp [hg]

theorem gate_calls (calls : List Bytes) (line : Bytes) (rest : List Bytes) (c : Prop)
    [Decidable c] (hl : line ≠ []) :
    (calls ++ (if c then line :: rest else [])).flatten = calls.flatten ↔ ¬ c := by
  by_cases h : c
  · rw [if_pos h]
    constructor
    · intro he
      exfalso
      have hlen := congrArg List.length he
      simp only [List.flatten_append, List.flatten_cons, List.length_append] at hlen
      have : line.length = 0 := by omega
      exact hl (List.length_eq_zero.mp this)
    · intro hn
      exact absurd h hn
  · simp [h]

/-! ## Fixed-width digits -/

theorem zpad_fixed (w n : Nat) (hw : 1 ≤ w) (hn : n < 10 ^ w) : zpad w n = lastDigits w n := by
  unfold zpad
  rw [max_eq_left (numDigits_le w n hw hn)]

theorem zpad_two (n : Nat) (hn : n < 100) : zpad 2 n = dec2 n := by
  rw [zpad_fixed 2 n (by decide) (by omega)]
  simp only [lastDigits, dec2, digitAt, List.nil_append, List.cons_append, pow_zero, pow_one,
    Nat.div_one]

theorem zpad_three (n : Nat) (hn : n < 1000) : zpad 3 n = dec3 n := by
  rw [zpad_fixed 3 n (by decide) (by omega)]
  simp only [lastDigits, dec3, digitAt, List.nil_append, List.cons_append, pow_zero, pow_one,
    Nat.div_one]
  have h2 : n / 10 / 10 % 10 = n / 10 ^ 2 % 10 := by norm_num; omega
  rw [h2]

theorem zpad_four (n : Nat) (hn : n < 10000) : zpad 4 n = dec4 n := by
  rw [zpad_fixed 4 n (by decide) (by omega)]
  simp only [lastDigits, dec4, digitAt, List.nil_append, List.cons_append, pow_zero, pow_one,
    Nat.div_one]
  have h2 : n / 10 / 10 % 10 = n / 10 ^ 2 % 10 := by norm_num; omega
  have h3 : n / 10 / 10 / 10 % 10 = n / 10 ^ 3 % 10 := by norm_num; omega
  rw [h2, h3]

theorem Mlevel_index (lvl : Int) (h0 : 0 ≤ lvl) (h5 : lvl ≤ 5) :
    Mlevel.lookup lvl = some (shortLabel lvl, (Mlevel.index lvl).2) := by
  have : lvl = 0 ∨ lvl = 1 ∨ lvl = 2 ∨ lvl = 3 ∨ lvl = 4 ∨ lvl = 5 := by omega
  rcases this with h | h | h | h | h | h <;> subst h <;> decide

theorem index_of_lookup (m : LevelTable) (lvl : Int) (e : Bytes × Bytes)
    (h : m.lookup lvl = some e) : m.index lvl = e := by
  unfold LevelTable.index
  rw [h]
  rfl

theorem written_Format (f : textFormatter) (g : Globals) (rt : Runtime) (pool : bufferPool)
    (w : Writer) (lvl : Int) (name msg : Bytes) (hv : rt.now.valid) (hp : pool.clean) :
    written (f.Format g rt pool w lvl name msg) =
      some (w.calls ++ [lineBytes f.flags g rt.now lvl name msg]) := by
  rw [Format_eq f g rt pool w lvl name msg hv hp]
  rfl

/-- Closed form of the written line when the Color flag is unset. -/
theorem Format_plain (f : textFormatter) (g : Globals) (rt : Runtime)
    (pool : bufferPool) (w : Writer) (lvl : Int) (name msg label color : Bytes)
    (hc : f.flags &&& Fcolor = 0) (hv : rt.now.valid) (hp : pool.clean)
    (hl : g.Mlevel.lookup lvl = some (label, color)) :
    written (f.Format g rt pool w lvl name msg) =
      some (w.calls ++
        [ (if f.flags &&& Fdate ≠ 0 then dateText (shown f.flags rt.now) ++ [32] else []) ++
          (if f.flags &&& (Ftime ||| Fmilliseconds) ≠ 0 then
            clockText (shown f.flags rt.now) ++
              (if f.flags &&& Fmilliseconds ≠ 0 then
                [46] ++ milliText (shown f.flags rt.now) else []) ++ [32]
           else []) ++
          (if f.flags &&& Flevel ≠ 0 then label ++ [32] else []) ++
          (if f.flags &&& Fname ≠ 0 ∧ name ≠ [] then name ++ [32] else []) ++
          msg ++ (if msg = [] ∨ msg.getLast? ≠ some 10 then [10] else []) ]) := by
  rw [written_Format f g rt pool w lvl name msg hv hp]
  have hi := index_of_lookup _ _ _ hl
  simp only [lineBytes, headerBytes, dateBlock, timeBlock, levelBlock, nameBlock,
    colorize, newlineFor, hi, hc, ne_eq, not_true_eq_false, if_false]


/-! ## Trailing newline -/

/-- A byte sequence that is empty or ends in a space. -/
theorem endsSpace_append {a b : Bytes} (ha : a = [] ∨ ∃ p, a = p ++ [32])
    (hb : b = [] ∨ ∃ p, b = p ++ [32]) : a ++ b = [] ∨ ∃ p, a ++ b = p ++ [32] := by
  rcases hb with hb | ⟨q, hq⟩
  · subst hb
    rw [List.append_nil]
    exact ha
  · right
    exact ⟨a ++ q, by rw [hq, List.append_assoc]⟩

theorem headerBytes_endsSpace (flags : Nat) (g : Globals) (now : Time) (lvl : Int)
    (name : Bytes) :
    headerBytes flags g now lvl name = [] ∨
      ∃ p, headerBytes flags g now lvl name = p ++ [32] := by
  unfold headerBytes
  refine endsSpace_append (endsSpace_append (endsSpace_append ?_ ?_) ?_) ?_
  · unfold dateBlock
    split
    · exact Or.inr ⟨_, rfl⟩
    · exact Or.inl rfl
  · unfold timeBlock
    split
    · exact Or.inr ⟨_, rfl⟩
    · exact Or.inl rfl
  · unfold levelBlock
    split
    · exact Or.inr ⟨_, rfl⟩
    · exact Or.inl rfl
  · unfold nameBlock
    split
    · exact Or.inr ⟨_, rfl⟩
    · exact Or.inl rfl

theorem concat_inj {a b : Bytes} {x y : Nat} (h : a ++ [x] = b ++ [y]) : a = b ∧ x = y := by
  have h1 := List.append_inj' h rfl
  exact ⟨h1.1, by simpa using h1.2⟩

theorem not_two_newlines_header (h : Bytes) (hs : h = [] ∨ ∃ p, h = p ++ [32]) (p : Bytes) :
    h ≠ p ++ [10] := by
  intro he
  rcases hs with hs | ⟨q, hq⟩
  · rw [hs] at he
    have := congrArg List.length he
    simp at this
  · rw [hq] at he
    have := (concat_inj he).2
    omega

theorem line_newline (h msg : Bytes) (hs : h = [] ∨ ∃ p, h = p ++ [32]) :
    (h ++ msg ++ newlineFor msg).getLast? = some 10 ∧
      (¬ endsInTwoNewlines msg → ¬ endsInTwoNewlines (h ++ msg ++ newlineFor msg)) := by
  unfold newlineFor
  rcases List.eq_nil_or_concat msg with hm | ⟨m, x, hm⟩
  · subst hm
    refine ⟨by simp, ?_⟩
    intro _ ⟨p, hp⟩
    simp only [List.append_nil, true_or, if_true] at hp
    have hp2 : h ++ [10] = (p ++ [10]) ++ [10] := by simpa using hp
    exact not_two_newlines_header h hs p (concat_inj hp2).1
  · rw [List.concat_eq_append] at hm
    subst hm
    by_cases hx : x = 10
    · subst hx
      have hc : ¬ (m ++ [10] = [] ∨ (m ++ [10]).getLast? ≠ some 10) := by simp
      rw [if_neg hc]
      refine ⟨by simp, ?_⟩
      intro hn ⟨p, hp⟩
      have hp2 : (h ++ m) ++ [10] = (p ++ [10]) ++ [10] := by simpa using hp
      have hp3 := (concat_inj hp2).1
      rcases List.eq_nil_or_concat m with hm | ⟨m2, y, hm⟩
      · subst hm
        rw [List.append_nil] at hp3
        exact not_two_newlines_header h hs p hp3
      · rw [List.concat_eq_append] at hm
        subst hm
        have hp4 : (h ++ m2) ++ [y] = p ++ [10] := by simpa using hp3
        have hy := (concat_inj hp4).2
        subst hy
        exact hn ⟨m2, by simp⟩
    · have hc : (m ++ [x] = [] ∨ (m ++ [x]).getLast? ≠ some 10) := by
        right; simp [hx]
      rw [if_pos hc]
      refine ⟨by simp, ?_⟩
      intro _ ⟨p, hp⟩
      have hp2 : (h ++ m ++ [x]) ++ [10] = (p ++ [10]) ++ [10] := by simpa using hp
      have hp3 : (h ++ m) ++ [x] = p ++ [10] := (concat_inj hp2).1
      exact hx (concat_inj hp3).2

/-! ## Escape bytes -/

theorem lastDigits_ge : ∀ (k n d : Nat), d ∈ lastDigits k n → 48 ≤ d ∧ d ≤ 57 := by
  intro k
  induction k with
  | zero => intro n d h; simp [lastDigits] at h
  | succ k ih =>
    intro n d h
    simp only [lastDigits, List.mem_append, List.mem_singleton] at h
    rcases h with h | h
    · exact ih _ _ h
    · omega

theorem zpad_noEsc (w n : Nat) : 27 ∉ zpad w n := by
  intro h
  have := lastDigits_ge _ _ _ h
  omega

theorem shortLabel_noEsc (lvl : Int) : 27 ∉ shortLabel lvl := by
  unfold shortLabel
  repeat' split
  all_goals decide

/-! ## Millisecond field -/

theorem dec3_value (n : Nat) (hn : n < 1000) :
    decValue (dec3 n) = n ∧ (dec3 n).length = 3 ∧ ∀ d ∈ dec3 n, 48 ≤ d ∧ d ≤ 57 := by
  refine ⟨?_, rfl, ?_⟩
  · simp only [decValue, dec3, digitAt, List.foldl_cons, List.foldl_nil]
    norm_num
    omega
  · intro d hd
    simp only [dec3, digitAt, List.mem_cons, List.mem_singleton, List.not_mem_nil,
      or_false] at hd
    rcases hd with h | h | h <;> omega

/-! ## Panic -/

/-- State after `write` or `writef` has passed `msg` through `Format`. -/
theorem Panic_eq (s : State) (rt : Runtime) (v : List Bytes) (hT : s.l.level ≤ Lpanic)
    (hv : rt.now.valid) (hp : s.pool.clean) :
    defaultLogger.Panic s rt v =
      some ({ s with
                pool := (s.pool.get rt.pick).2.put [],
                l := { s.l with
                  w := (s.l.w.Write
                    (lineBytes s.l.f.flags s.vars rt.now Lpanic s.l.name (Sprintln v))).1 } },
        Outcome.panicked (Sprintln v)) := by
  unfold defaultLogger.Panic defaultLogger.write
  simp [hT, emit_eq s rt Lpanic _ hv hp]

theorem Panicf_eq (s : State) (rt : Runtime) (format : Bytes) (v : List Bytes)
    (hT : s.l.level ≤ Lpanic) (hv : rt.now.valid) (hp : s.pool.clean) :
    defaultLogger.Panicf s rt format v =
      some ({ s with
                pool := (s.pool.get rt.pick).2.put [],
                l := { s.l with
                  w := (s.l.w.Write
                    (lineBytes s.l.f.flags s.vars rt.now Lpanic s.l.name
                      (rt.Sprintf format v))).1 } },
        Outcome.panicked (rt.Sprintf format v)) := by
  unfold defaultLogger.Panicf defaultLogger.writef
  simp [hT, emit_eq s rt Lpanic _ hv hp]

theorem Sprintln_one (str : Bytes) : Sprintln [str] = str ++ [10] := by
  simp [Sprintln, List.intercalate]

/-! ## Calls below the threshold, Fatal -/

theorem Print_off (s : State) (rt : Runtime) (lvl : Int) (v : List Bytes)
    (h : lvl < s.l.level) : defaultLogger.Print s rt lvl v = some s := by
  unfold defaultLogger.Print
  have hg : ¬ lvl ≥ s.l.level := by omega
  simp [hg]

theorem Printf_off (s : State) (rt : Runtime) (lvl : Int) (format : Bytes) (v : List Bytes)
    (h : lvl < s.l.level) : defaultLogger.Printf s rt lvl format v = some s := by
  unfold defaultLogger.Printf
  have hg : ¬ lvl ≥ s.l.level := by omega
  simp [hg]

theorem Panic_off (s : State) (rt : Runtime) (v : List Bytes) (h : Lpanic < s.l.level) :
    defaultLogger.Panic s rt v = some (s, Outcome.panicked []) := by
  unfold defaultLogger.Panic
  have hg : ¬ s.l.level ≤ Lpanic := by omega
  simp [hg]

theorem Panicf_off (s : State) (rt : Runtime) (format : Bytes) (v : List Bytes)
    (h : Lpanic < s.l.level) :
    defaultLogger.Panicf s rt format v = some (s, Outcome.panicked []) := by
  unfold defaultLogger.Panicf
  have hg : ¬ s.l.level ≤ Lpanic := by omega
  simp [hg]

theorem Fatal_eq (s : State) (rt : Runtime) (v : List Bytes) (hv : rt.now.valid)
    (hp : s.pool.clean) :
    ∃ s1, defaultLogger.Fatal s rt v = some (s1, Outcome.exited 1) ∧
      s1.l.w.calls = s.l.w.calls ++
        (if Lfatal ≥ s.l.level then
          [lineBytes s.l.f.flags s.vars rt.now Lfatal s.l.name (Sprintln v),
            rt.stack.take 8192]
        else []) := by
  obtain ⟨s1, h1, h2⟩ := Print_eq s rt Lfatal v hv hp
  refine ⟨s1, ?_, ?_⟩
  · unfold defaultLogger.Fatal
    rw [h1]
    rfl
  · rw [h2]
    have : Lfatal > Lwarning := by decide
    simp [this]

theorem Fatalf_eq (s : State) (rt : Runtime) (format : Bytes) (v : List Bytes)
    (hv : rt.now.valid) (hp : s.pool.clean) :
    ∃ s1, defaultLogger.Fatalf s rt format v = some (s1, Outcome.exited 1) ∧
      s1.l.w.calls = s.l.w.calls ++
        (if Lfatal ≥ s.l.level then
          [lineBytes s.l.f.flags s.vars rt.now Lfatal s.l.name (rt.Sprintf format v),
            rt.stack.take 8192]
        else []) := by
  obtain ⟨s1, h1, h2⟩ := Printf_eq s rt Lfatal format v hv hp
  refine ⟨s1, ?_, ?_⟩
  · unfold defaultLogger.Fatalf
    rw [h1]
    rfl
  · rw [h2]
    have : Lfatal > Lwarning := by decide
    simp [this]

/-! ## Lines of the per-level methods -/

theorem lineBytes_label (flags : Nat) (g : Globals) (now : Time) (lvl : Int)
    (name msg label color : Bytes) (hL : flags &&& Flevel ≠ 0)
    (hl : g.Mlevel.lookup lvl = some (label, color)) :
    lineBytes flags g now lvl name msg = labelledLine flags g now label color name msg := by
  have hi := index_of_lookup _ _ _ hl
  simp only [lineBytes, headerBytes, levelBlock, labelledLine, if_pos hL, hi]

/-! ## The pool over a sequence of Format calls -/

theorem newBufferPool_clean : newBufferPool.clean := by
  intro b hb
  simp [newBufferPool] at hb

theorem formatAll_clean : ∀ (cs : List FormatCall) (pool : bufferPool) (w : Writer),
    pool.clean → (∀ c ∈ cs, c.rt.now.valid) →
    ∃ pool1 w1, formatAll pool w cs = some (pool1, w1) ∧ pool1.clean ∧
      w1.calls = w.calls ++
        cs.map (fun c => lineBytes c.f.flags c.g c.rt.now c.lvl c.name c.msg) := by
  intro cs
  induction cs with
  | nil =>
    intro pool w hp _
    exact ⟨pool, w, rfl, hp, by simp⟩
  | cons c cs ih =>
    intro pool w hp hv
    have hc : c.rt.now.valid := hv c (List.mem_cons_self _ _)
    have hrest : ∀ x ∈ cs, x.rt.now.valid := fun x hx => hv x (List.mem_cons_of_mem _ hx)
    obtain ⟨pool1, w1, h1, h2, h3⟩ := ih ((pool.get c.rt.pick).2.put [])
      (w.Write (lineBytes c.f.flags c.g c.rt.now c.lvl c.name c.msg)).1
      (Format_clean pool c.rt.pick hp) hrest
    refine ⟨pool1, w1, ?_, h2, ?_⟩
    · simp only [formatAll, Format_eq c.f c.g c.rt pool w c.lvl c.name c.msg hc hp]
      exact h1
    · rw [h3]
      simp [Writer.Write]

/-! ## The padded decimal, characterised -/

theorem lastDigits_length : ∀ (k n : Nat), (lastDigits k n).length = k := by
  intro k
  induction k with
  | zero => intro n; rfl
  | succ k ih => intro n; simp [lastDigits, ih]

theorem decValue_concat (l : Bytes) (d : Nat) :
    decValue (l ++ [d]) = 10 * decValue l + (d - 48) := by
  simp [decValue, List.foldl_append]

theorem decValue_lastDigits : ∀ (k n : Nat), decValue (lastDigits k n) = n % 10 ^ k := by
  intro k
  induction k with
  | zero => intro n; simp [lastDigits, decValue, Nat.mod_one]
  | succ k ih =>
    intro n
    rw [lastDigits, decValue_concat, ih, pow_succ, Nat.mul_comm (10 ^ k) 10, Nat.mod_mul]
    omega

theorem lt_pow_numDigits (n : Nat) : n < 10 ^ numDigits n := by
  induction n using Nat.strong_induction_on with
  | _ n ih =>
    by_cases h : n < 10
    · rw [numDigits_small h]; omega
    · rw [numDigits_step (by omega), pow_succ]
      have := ih (n / 10) (by omega)
      omega

theorem pow_le_of_numDigits (n : Nat) (hn : n ≠ 0) : 10 ^ (numDigits n - 1) ≤ n := by
  induction n using Nat.strong_induction_on with
  | _ n ih =>
    by_cases h : n < 10
    · rw [numDigits_small h]; simp; omega
    · rw [numDigits_step (by omega)]
      have h1 := ih (n / 10) (by omega) (by omega)
      have hp := numDigits_pos (n / 10)
      have e : numDigits (n / 10) + 1 - 1 = (numDigits (n / 10) - 1) + 1 := by omega
      rw [e, pow_succ]
      omega

theorem lastDigits_zero : ∀ j : Nat, lastDigits j 0 = List.replicate j 48 := by
  intro j
  induction j with
  | zero => rfl
  | succ j ih =>
    rw [lastDigits, Nat.zero_div, ih, List.replicate_succ']

theorem lastDigits_pad : ∀ (k j n : Nat), n < 10 ^ k →
    lastDigits (j + k) n = List.replicate j 48 ++ lastDigits k n := by
  intro k
  induction k with
  | zero =>
    intro j n hn
    have h0 : n = 0 := by simpa using hn
    subst h0
    simp [lastDigits, lastDigits_zero]
  | succ k ih =>
    intro j n hn
    have hq : n / 10 < 10 ^ k := by
      rw [Nat.div_lt_iff_lt_mul (by decide)]
      rw [pow_succ] at hn
      exact hn
    rw [← Nat.add_assoc, lastDigits, ih j (n / 10) hq, lastDigits, List.append_assoc]

theorem zpad_eq_pad (w n : Nat) :
    zpad w n = List.replicate (w - numDigits n) 48 ++ lastDigits (numDigits n) n := by
  unfold zpad
  have h : max w (numDigits n) = (w - numDigits n) + numDigits n := by omega
  rw [h, lastDigits_pad _ _ _ (lt_pow_numDigits n)]

theorem zpad_digits (w n d : Nat) (h : d ∈ zpad w n) : 48 ≤ d ∧ d ≤ 57 :=
  lastDigits_ge _ _ _ h

/-- At the smallest 64-bit width the first `wid--` wraps around to the largest integer, the
loop keeps going and the 21st store is out of range; no caller of `itoa` passes such a
width. -/
theorem itoa_smallest_width : itoa [] 10 (-9223372036854775808) = none := by
  decide

/-! # The claims -/

/-- C1 (level gate). `Print` and `Printf` at level `lvl` hand the writer the formatted line
(followed by the stack dump above Warning) when `lvl` is at least the threshold, and nothing
at all when it is below: the writer's bytes change if and only if `lvl >= threshold`. -/
theorem level_gate (s : State) (rt : Runtime) (lvl : Int) (format : Bytes) (v : List Bytes)
    (hv : rt.now.valid) (hp : s.pool.clean) :
    (∃ s1, defaultLogger.Print s rt lvl v = some s1 ∧
      s1.l.w.calls = s.l.w.calls ++
        (if lvl ≥ s.l.level then
          lineBytes s.l.f.flags s.vars rt.now lvl s.l.name (Sprintln v) ::
            (if lvl > Lwarning then [rt.stack.take 8192] else [])
        else []) ∧
      (s1.l.w.bytes ≠ s.l.w.bytes ↔ lvl ≥ s.l.level)) ∧
    (∃ s2, defaultLogger.Printf s rt lvl format v = some s2 ∧
      s2.l.w.calls = s.l.w.calls ++
        (if lvl ≥ s.l.level then
          lineBytes s.l.f.flags s.vars rt.now lvl s.l.name (rt.Sprintf format v) ::
            (if lvl > Lwarning then [rt.stack.take 8192] else [])
        else []) ∧
      (s2.l.w.bytes ≠ s.l.w.bytes ↔ lvl ≥ s.l.level)) := by
  constructor
  · obtain ⟨s1, h1, h2⟩ := Print_eq s rt lvl v hv hp
    refine ⟨s1, h1, h2, ?_⟩
    unfold Writer.bytes
    rw [h2, Ne, gate_calls _ _ _ _ (lineBytes_ne_nil _ _ _ _ _ _), not_not]
  · obtain ⟨s2, h1, h2⟩ := Printf_eq s rt lvl format v hv hp
    refine ⟨s2, h1, h2, ?_⟩
    unfold Writer.bytes
    rw [h2, Ne, gate_calls _ _ _ _ (lineBytes_ne_nil _ _ _ _ _ _), not_not]

/-- Witness for C1: threshold Warning, a Debug call leaves the sink empty, a Warning call
writes one line. -/
theorem level_gate_witness :
    (∃ s1, defaultLogger.Print (sampleState Fdefault Lwarning Writer.buffer) sampleRuntime
        Ldebug [ascii "debug"] = some s1 ∧ s1.l.w.bytes = []) ∧
    (∃ s1, defaultLogger.Print (sampleState Fdefault Lwarning Writer.buffer) sampleRuntime
        Lwarning [ascii "warning"] = some s1 ∧
        s1.l.w.bytes = ascii "2024/03/09 07:05:01.001 WRN svc warning\n") := by
  constructor
  · obtain ⟨⟨s1, h1, h2, _⟩, _⟩ := level_gate (sampleState Fdefault Lwarning Writer.buffer)
      sampleRuntime Ldebug [] [ascii "debug"] (by decide) (by decide)
    refine ⟨s1, h1, ?_⟩
    unfold Writer.bytes
    rw [h2]
    decide
  · obtain ⟨⟨s1, h1, h2, _⟩, _⟩ := level_gate (sampleState Fdefault Lwarning Writer.buffer)
      sampleRuntime Lwarning [] [ascii "warning"] (by decide) (by decide)
    refine ⟨s1, h1, ?_⟩
    unfold Writer.bytes
    rw [h2]
    decide

/-- C2 (header composition and order). With Color unset and a level that has a table entry,
`Format` writes date block, time block, level block, name block and message, in that order,
then the newline if needed; each block is its field and one space when its flag is set and
empty otherwise, the name block being empty for an empty name as well. -/
theorem header_composition (f : textFormatter) (g : Globals) (rt : Runtime)
    (pool : bufferPool) (w : Writer) (lvl : Int) (name msg label color : Bytes)
    (hc : f.flags &&& Fcolor = 0) (hv : rt.now.valid) (hp : pool.clean)
    (hl : g.Mlevel.lookup lvl = some (label, color)) :
    written (f.Format g rt pool w lvl name msg) =
      some (w.calls ++
        [ (if f.flags &&& Fdate ≠ 0 then dateText (shown f.flags rt.now) ++ [32] else []) ++
          (if f.flags &&& (Ftime ||| Fmilliseconds) ≠ 0 then
            clockText (shown f.flags rt.now) ++
              (if f.flags &&& Fmilliseconds ≠ 0 then
                [46] ++ milliText (shown f.flags rt.now) else []) ++ [32]
           else []) ++
          (if f.flags &&& Flevel ≠ 0 then label ++ [32] else []) ++
          (if f.flags &&& Fname ≠ 0 ∧ name ≠ [] then name ++ [32] else []) ++
          msg ++ (if msg = [] ∨ msg.getLast? ≠ some 10 then [10] else []) ]) := by
  rw [written_Format f g rt pool w lvl name msg hv hp]
  have hi := index_of_lookup _ _ _ hl
  simp only [lineBytes, headerBytes, dateBlock, timeBlock, levelBlock, nameBlock,
    colorize, newlineFor, hi, hc, ne_eq, not_true_eq_false, if_false]

/-- Witness for C2: mask Level and Name, level Info, name `svc`, message `ready` gives
exactly `INF svc ready` and a newline. -/
theorem header_composition_witness :
    written ((NewTextFormatter (Flevel ||| Fname)).Format Globals.declared sampleRuntime
      newBufferPool Writer.buffer Linfo (ascii "svc") (ascii "ready")) =
      some [ascii "INF svc ready\n"] := by
  rw [header_composition (NewTextFormatter (Flevel ||| Fname))
    Globals.declared sampleRuntime newBufferPool Writer.buffer Linfo (ascii "svc")
    (ascii "ready") (ascii "INF") (ascii "\x1b[0;32m") (by decide) (by decide) (by decide)
    (by decide)]
  decide

/-- C3 (byte-exact default line). With the default mask and the declared level table, for a
timestamp whose year is in 0..9999 and a level Debug..Panic, `Format` writes exactly
`YYYY/MM/DD HH:MM:SS.mmm LVL `, then the name and a space unless the name is empty, then the
message and its newline; the digits are the zero-padded fields of the timestamp. -/
theorem default_line (g : Globals) (rt : Runtime) (pool : bufferPool) (w : Writer)
    (lvl : Int) (name msg : Bytes) (hm : g.Mlevel = Mlevel) (hv : rt.now.valid)
    (hy : rt.now.loc.year ≤ 9999) (hp : pool.clean) (h0 : Ldebug ≤ lvl) (h5 : lvl ≤ Lpanic) :
    written ((NewTextFormatter Fdefault).Format g rt pool w lvl name msg) =
      some (w.calls ++
        [ dec4 rt.now.loc.year.toNat ++ [47] ++ dec2 rt.now.loc.month.toNat ++ [47] ++
          dec2 rt.now.loc.day.toNat ++ [32] ++
          dec2 rt.now.loc.hour.toNat ++ [58] ++ dec2 rt.now.loc.min.toNat ++ [58] ++
          dec2 rt.now.loc.sec.toNat ++ [46] ++ dec3 (rt.now.loc.nsec.toNat / 1000000) ++ [32] ++
          shortLabel lvl ++ [32] ++
          (if name = [] then [] else name ++ [32]) ++
          msg ++ (if msg = [] ∨ msg.getLast? ≠ some 10 then [10] else []) ]) := by
  obtain ⟨⟨hy0, _⟩, ⟨hmo0, hmo1⟩, ⟨hd0, hd1⟩, ⟨hh0, hh1⟩, ⟨hmi0, hmi1⟩, ⟨hs0, hs1⟩,
    ⟨hn0, hn1⟩⟩ := hv.1
  have hl := Mlevel_index lvl h0 h5
  rw [← hm] at hl
  rw [Format_plain (NewTextFormatter Fdefault) g rt pool w lvl name msg
    (shortLabel lvl) (g.Mlevel.index lvl).2 (by decide) hv hp hl]
  have e1 : (NewTextFormatter Fdefault).flags &&& Fdate ≠ 0 := by decide
  have e2 : (NewTextFormatter Fdefault).flags &&& (Ftime ||| Fmilliseconds) ≠ 0 := by decide
  have e3 : (NewTextFormatter Fdefault).flags &&& Fmilliseconds ≠ 0 := by decide
  have e4 : (NewTextFormatter Fdefault).flags &&& Flevel ≠ 0 := by decide
  have e5 : (NewTextFormatter Fdefault).flags &&& Fname ≠ 0 := by decide
  have e6 : ¬ ((NewTextFormatter Fdefault).flags &&& Futc ≠ 0) := by decide
  simp only [if_pos e1, if_pos e2, if_pos e3, if_pos e4, shown, if_neg e6, dateText, clockText,
    milliText]
  rw [zpad_four _ (by omega), zpad_two rt.now.loc.month.toNat (by omega),
    zpad_two rt.now.loc.day.toNat (by omega), zpad_two rt.now.loc.hour.toNat (by omega),
    zpad_two rt.now.loc.min.toNat (by omega), zpad_two rt.now.loc.sec.toNat (by omega),
    zpad_three _ (by omega)]
  by_cases hn : name = []
  · simp [hn]
  · simp [hn, e5]

/-- Witness for C3: the sample clock reading, level Debug, empty name, message `x`. -/
theorem default_line_witness :
    written ((NewTextFormatter Fdefault).Format Globals.declared sampleRuntime newBufferPool
      Writer.buffer Ldebug [] (ascii "x")) = some [ascii "2024/03/09 07:05:01.001 DBG x\n"] := by
  rw [default_line Globals.declared sampleRuntime newBufferPool Writer.buffer Ldebug []
    (ascii "x") rfl (by decide) (by decide) (by decide) (by decide) (by decide)]
  decide

/-- C4 as amended (trailing newline). The line `Format` writes is the header, the message,
and one newline appended when the message is empty or does not end in a newline (none
otherwise); it always ends in a newline, and it does not end in two newlines unless the
message itself does. -/
theorem trailing_newline (f : textFormatter) (g : Globals) (rt : Runtime) (pool : bufferPool)
    (w : Writer) (lvl : Int) (name msg : Bytes) (hv : rt.now.valid) (hp : pool.clean) :
    ∃ line, written (f.Format g rt pool w lvl name msg) = some (w.calls ++ [line]) ∧
      line = headerBytes f.flags g rt.now lvl name ++ msg ++
        (if msg = [] ∨ msg.getLast? ≠ some 10 then [10] else []) ∧
      line.getLast? = some 10 ∧
      (¬ endsInTwoNewlines msg → ¬ endsInTwoNewlines line) := by
  refine ⟨_, written_Format f g rt pool w lvl name msg hv hp, rfl, ?_⟩
  exact line_newline _ msg (headerBytes_endsSpace f.flags g rt.now lvl name)

/-- Witness for C4 as amended: message `x` gets its newline, message `x` with a newline
keeps exactly that one. -/
theorem trailing_newline_witness :
    written ((NewTextFormatter Flevel).Format Globals.declared sampleRuntime newBufferPool
      Writer.buffer Linfo [] (ascii "x")) = some [ascii "INF x\n"] ∧
    written ((NewTextFormatter Flevel).Format Globals.declared sampleRuntime newBufferPool
      Writer.buffer Linfo [] (ascii "x\n")) = some [ascii "INF x\n"] := by
  obtain ⟨l1, h1, e1, _, _⟩ := trailing_newline (NewTextFormatter Flevel) Globals.declared
    sampleRuntime newBufferPool Writer.buffer Linfo [] (ascii "x") (by decide) (by decide)
  obtain ⟨l2, h2, e2, _, _⟩ := trailing_newline (NewTextFormatter Flevel) Globals.declared
    sampleRuntime newBufferPool Writer.buffer Linfo [] (ascii "x\n") (by decide) (by decide)
  rw [h1, h2, e1, e2]
  decide

/-- Counterexample to C4 as stated: a message that ends in two newlines is written with
both, so the output ends in two newlines. -/
theorem trailing_newline_counterexample :
    written ((NewTextFormatter Flevel).Format Globals.declared sampleRuntime newBufferPool
      Writer.buffer Linfo [] (ascii "a\n\n")) = some [ascii "INF a\n\n"] ∧
    endsInTwoNewlines (ascii "INF a\n\n") :=
  ⟨by decide, ⟨ascii "INF a", by decide⟩⟩

/-- C5 (Color off means plain text). With the Color flag unset, the declared level table,
a level Debug..Panic, and a name and a message free of the ESC byte (27), the line `Format`
writes contains no ESC byte. -/
theorem no_escape_without_color (f : textFormatter) (g : Globals) (rt : Runtime)
    (pool : bufferPool) (w : Writer) (lvl : Int) (name msg : Bytes)
    (hc : f.flags &&& Fcolor = 0) (hm : g.Mlevel = Mlevel) (hv : rt.now.valid)
    (hp : pool.clean) (h0 : Ldebug ≤ lvl) (h5 : lvl ≤ Lpanic)
    (hname : 27 ∉ name) (hmsg : 27 ∉ msg) :
    ∃ line, written (f.Format g rt pool w lvl name msg) = some (w.calls ++ [line]) ∧
      27 ∉ line := by
  have hl := Mlevel_index lvl h0 h5
  rw [← hm] at hl
  refine ⟨_, Format_plain f g rt pool w lvl name msg (shortLabel lvl) (g.Mlevel.index lvl).2
    hc hv hp hl, ?_⟩
  have hz := zpad_noEsc
  have hs := shortLabel_noEsc lvl
  simp only [List.mem_append, not_or, dateText, clockText, milliText]
  refine ⟨⟨⟨⟨⟨?_, ?_⟩, ?_⟩, ?_⟩, hmsg⟩, ?_⟩
  · split
    · simp [hz]
    · simp
  · split
    · split
      · simp [hz]
      · simp [hz]
    · simp
  · split
    · simp [hs]
    · simp
  · split
    · simp [hname]
    · simp
  · split
    · simp
    · simp

/-- Witness for C5: the default mask, level Error, on the sample clock reading. -/
theorem no_escape_without_color_witness :
    ∃ line, written ((NewTextFormatter Fdefault).Format Globals.declared sampleRuntime
      newBufferPool Writer.buffer Lerror (ascii "svc") (ascii "disk full")) = some [line] ∧
      27 ∉ line := by
  obtain ⟨line, h, hn⟩ := no_escape_without_color (NewTextFormatter Fdefault) Globals.declared
    sampleRuntime newBufferPool Writer.buffer Lerror (ascii "svc") (ascii "disk full")
    (by decide) rfl (by decide) (by decide) (by decide) (by decide) (by decide) (by decide)
  exact ⟨line, h, hn⟩

/-- C6 (millisecond field). When the Milliseconds flag is set, the line `Format` writes has,
right after `HH:MM:SS` and a dot, the millisecond field: three decimal digits whose value is
the sub-second nanoseconds divided by 1000000 and rounded down. -/
theorem millisecond_field (f : textFormatter) (g : Globals) (rt : Runtime) (pool : bufferPool)
    (w : Writer) (lvl : Int) (name msg : Bytes) (hms : f.flags &&& Fmilliseconds ≠ 0)
    (hv : rt.now.valid) (hp : pool.clean) :
    written (f.Format g rt pool w lvl name msg) =
      some (w.calls ++
        [ dateBlock f.flags g.Cdate rt.now ++
          (if f.flags &&& Fcolor ≠ 0 then g.Cdate else []) ++
          clockText (shown f.flags rt.now) ++ [46] ++
          dec3 ((shown f.flags rt.now).nsec.toNat / 1000000) ++
          (if f.flags &&& Fcolor ≠ 0 then creset else []) ++ [32] ++
          levelBlock f.flags g.Mlevel lvl ++ nameBlock f.flags g.Cname name ++
          msg ++ newlineFor msg ]) ∧
    (dec3 ((shown f.flags rt.now).nsec.toNat / 1000000)).length = 3 ∧
    (∀ d ∈ dec3 ((shown f.flags rt.now).nsec.toNat / 1000000), 48 ≤ d ∧ d ≤ 57) ∧
    decValue (dec3 ((shown f.flags rt.now).nsec.toNat / 1000000)) =
      (shown f.flags rt.now).nsec.toNat / 1000000 ∧
    (shown f.flags rt.now).nsec.toNat / 1000000 * 1000000 ≤ (shown f.flags rt.now).nsec.toNat ∧
    (shown f.flags rt.now).nsec.toNat <
      ((shown f.flags rt.now).nsec.toNat / 1000000 + 1) * 1000000 := by
  have hc : (shown f.flags rt.now).valid := by
    unfold shown; split
    · exact hv.2
    · exact hv.1
  obtain ⟨_, _, _, _, _, _, ⟨hn0, hn1⟩⟩ := hc
  have hlt : (shown f.flags rt.now).nsec.toNat / 1000000 < 1000 := by omega
  obtain ⟨d1, d2, d3⟩ := dec3_value _ hlt
  refine ⟨?_, d2, d3, d1, by omega, by omega⟩
  rw [written_Format f g rt pool w lvl name msg hv hp]
  have ht : f.flags &&& (Ftime ||| Fmilliseconds) ≠ 0 := flag_mono (by decide) hms
  simp only [lineBytes, headerBytes, timeBlock, if_pos ht, if_pos hms, colorize, milliText,
    zpad_three _ hlt]
  by_cases hcol : f.flags &&& Fcolor ≠ 0
  · simp [hcol]
  · simp [hcol]

/-- Witness for C6: 999999999 ns renders `999` and 1999999 ns renders `001`. -/
theorem millisecond_field_witness :
    written ((NewTextFormatter Fmilliseconds).Format Globals.declared
      { sampleRuntime with now := { sampleTime with
          loc := { sampleTime.loc with nsec := 999999999 } } }
      newBufferPool Writer.buffer Linfo [] (ascii "x")) = some [ascii "07:05:01.999 x\n"] ∧
    written ((NewTextFormatter Fmilliseconds).Format Globals.declared sampleRuntime
      newBufferPool Writer.buffer Linfo [] (ascii "x")) = some [ascii "07:05:01.001 x\n"] := by
  constructor
  · rw [(millisecond_field (NewTextFormatter Fmilliseconds) Globals.declared
      { sampleRuntime with now := { sampleTime with
          loc := { sampleTime.loc with nsec := 999999999 } } }
      newBufferPool Writer.buffer Linfo [] (ascii "x") (by decide) (by decide) (by decide)).1]
    decide
  · rw [(millisecond_field (NewTextFormatter Fmilliseconds) Globals.declared sampleRuntime
      newBufferPool Writer.buffer Linfo [] (ascii "x") (by decide) (by decide) (by decide)).1]
    decide

/-- C7 (level colorization). With Level and Color set and a level that has a table entry
(every level Debug..Panic has one in the declared table), the level block `Format` writes
is the entry's color escape, the entry's label, the reset escape and one space, placed
between the time block and the name block. -/
theorem level_colorized (f : textFormatter) (g : Globals) (rt : Runtime) (pool : bufferPool)
    (w : Writer) (lvl : Int) (name msg label color : Bytes)
    (hL : f.flags &&& Flevel ≠ 0) (hC : f.flags &&& Fcolor ≠ 0) (hv : rt.now.valid)
    (hp : pool.clean) (hl : g.Mlevel.lookup lvl = some (label, color)) :
    written (f.Format g rt pool w lvl name msg) =
      some (w.calls ++
        [ dateBlock f.flags g.Cdate rt.now ++ timeBlock f.flags g.Cdate rt.now ++
          (color ++ label ++ creset ++ [32]) ++
          nameBlock f.flags g.Cname name ++ msg ++ newlineFor msg ]) := by
  rw [written_Format f g rt pool w lvl name msg hv hp]
  have hi := index_of_lookup _ _ _ hl
  simp only [lineBytes, headerBytes, levelBlock, colorize, if_pos hL, if_pos hC, hi]

/-- Witness for C7: the six levels of the declared table, mask Level and Color. -/
theorem level_colorized_witness :
    written ((NewTextFormatter (Flevel ||| Fcolor)).Format Globals.declared sampleRuntime
      newBufferPool Writer.buffer Ldebug [] (ascii "x")) =
        some [ascii "\x1b[0;34mDBG\x1b[0m x\n"] ∧
    written ((NewTextFormatter (Flevel ||| Fcolor)).Format Globals.declared sampleRuntime
      newBufferPool Writer.buffer Linfo [] (ascii "x")) =
        some [ascii "\x1b[0;32mINF\x1b[0m x\n"] ∧
    written ((NewTextFormatter (Flevel ||| Fcolor)).Format Globals.declared sampleRuntime
      newBufferPool Writer.buffer Lwarning [] (ascii "x")) =
        some [ascii "\x1b[0;33mWRN\x1b[0m x\n"] ∧
    written ((NewTextFormatter (Flevel ||| Fcolor)).Format Globals.declared sampleRuntime
      newBufferPool Writer.buffer Lerror [] (ascii "x")) =
        some [ascii "\x1b[0;31mERR\x1b[0m x\n"] ∧
    written ((NewTextFormatter (Flevel ||| Fcolor)).Format Globals.declared sampleRuntime
      newBufferPool Writer.buffer Lfatal [] (ascii "x")) =
        some [ascii "\x1b[1;31mFTL\x1b[0m x\n"] ∧
    written ((NewTextFormatter (Flevel ||| Fcolor)).Format Globals.declared sampleRuntime
      newBufferPool Writer.buffer Lpanic [] (ascii "x")) =
        some [ascii "\x1b[1;31mPAN\x1b[0m x\n"] := by
  refine ⟨?_, ?_, ?_, ?_, ?_, ?_⟩
  · rw [level_colorized (NewTextFormatter (Flevel ||| Fcolor)) Globals.declared sampleRuntime
      newBufferPool Writer.buffer Ldebug [] (ascii "x") (ascii "DBG") (ascii "\x1b[0;34m")
      (by decide) (by decide) (by decide) (by decide) (by decide)]
    decide
  · rw [level_colorized (NewTextFormatter (Flevel ||| Fcolor)) Globals.declared sampleRuntime
      newBufferPool Writer.buffer Linfo [] (ascii "x") (ascii "INF") (ascii "\x1b[0;32m")
      (by decide) (by decide) (by decide) (by decide) (by decide)]
    decide
  · rw [level_colorized (NewTextFormatter (Flevel ||| Fcolor)) Globals.declared sampleRuntime
      newBufferPool Writer.buffer Lwarning [] (ascii "x") (ascii "WRN") (ascii "\x1b[0;33m")
      (by decide) (by decide) (by decide) (by decide) (by decide)]
    decide
  · rw [level_colorized (NewTextFormatter (Flevel ||| Fcolor)) Globals.declared sampleRuntime
      newBufferPool Writer.buffer Lerror [] (ascii "x") (ascii "ERR") (ascii "\x1b[0;31m")
      (by decide) (by decide) (by decide) (by decide) (by decide)]
    decide
  · rw [level_colorized (NewTextFormatter (Flevel ||| Fcolor)) Globals.declared sampleRuntime
      newBufferPool Writer.buffer Lfatal [] (ascii "x") (ascii "FTL") (ascii "\x1b[1;31m")
      (by decide) (by decide) (by decide) (by decide) (by decide)]
    decide
  · rw [level_colorized (NewTextFormatter (Flevel ||| Fcolor)) Globals.declared sampleRuntime
      newBufferPool Writer.buffer Lpanic [] (ascii "x") (ascii "PAN") (ascii "\x1b[1;31m")
      (by decide) (by decide) (by decide) (by decide) (by decide)]
    decide

/-- C8 (time colorization), the code at a failing input: with `Ctime` assigned a color of
its own (magenta) and `Cdate` left as declared, mask Time and Color, the time field is
written in the color `Cdate`, not in `Ctime`: the line differs from the one that opens the
time block with `Ctime`. -/
theorem time_color_is_date_color :
    written ((NewTextFormatter (Ftime ||| Fcolor)).Format
      { Globals.declared with Ctime := ascii "\x1b[0;35m" } sampleRuntime newBufferPool
      Writer.buffer Linfo [] (ascii "x")) =
        some [ascii "\x1b[0;37m07:05:01\x1b[0m x\n"] ∧
    ascii "\x1b[0;37m07:05:01\x1b[0m x\n" ≠
      timeBlock (Ftime ||| Fcolor) (ascii "\x1b[0;35m") sampleTime ++ ascii "x\n" ∧
    timeBlock (Ftime ||| Fcolor) (ascii "\x1b[0;35m") sampleTime ++ ascii "x\n" =
      ascii "\x1b[0;35m07:05:01\x1b[0m x\n" := by
  refine ⟨by decide, by decide, by decide⟩

/-- C9 (panic escalation payload). When the threshold is at most Panic, `Panic` and `Panicf`
pass the message (the `Sprintln`, respectively `Sprintf`, result) to `Format` at level Panic,
which hands the writer the PAN line, and then raise with exactly that message as payload,
whatever error the writer answered. -/
theorem panic_payload (s : State) (rt : Runtime) (format : Bytes) (v : List Bytes)
    (hT : s.l.level ≤ Lpanic) (hv : rt.now.valid) (hp : s.pool.clean) :
    (∃ s1 err, defaultLogger.Panic s rt v = some (s1, Outcome.panicked (Sprintln v)) ∧
      s.l.f.Format s.vars rt s.pool s.l.w Lpanic s.l.name (Sprintln v) =
        some (s1.pool, s1.l.w, err) ∧
      s1.l.w.calls = s.l.w.calls ++
        [headerBytes s.l.f.flags s.vars rt.now Lpanic s.l.name ++ Sprintln v ++
          newlineFor (Sprintln v)]) ∧
    (∃ s2 err, defaultLogger.Panicf s rt format v =
        some (s2, Outcome.panicked (rt.Sprintf format v)) ∧
      s.l.f.Format s.vars rt s.pool s.l.w Lpanic s.l.name (rt.Sprintf format v) =
        some (s2.pool, s2.l.w, err) ∧
      s2.l.w.calls = s.l.w.calls ++
        [headerBytes s.l.f.flags s.vars rt.now Lpanic s.l.name ++ rt.Sprintf format v ++
          newlineFor (rt.Sprintf format v)]) := by
  constructor
  · exact ⟨_, _, Panic_eq s rt v hT hv hp,
      Format_eq s.l.f s.vars rt s.pool s.l.w Lpanic s.l.name (Sprintln v) hv hp, rfl⟩
  · exact ⟨_, _, Panicf_eq s rt format v hT hv hp,
      Format_eq s.l.f s.vars rt s.pool s.l.w Lpanic s.l.name (rt.Sprintf format v) hv hp, rfl⟩

/-- Witness for C9: a writer whose every write fails still receives the PAN line, and the
call raises with the message as payload. -/
theorem panic_payload_witness :
    ∃ s1, defaultLogger.Panic (sampleState Fdefault Ldebug Writer.broken) sampleRuntime
        [ascii "boom"] = some (s1, Outcome.panicked (ascii "boom\n")) ∧
      s1.l.w.calls = [ascii "2024/03/09 07:05:01.001 PAN svc boom\n"] := by
  obtain ⟨⟨s1, err, h1, _, h3⟩, _⟩ := panic_payload
    (sampleState Fdefault Ldebug Writer.broken) sampleRuntime [] [ascii "boom"]
    (by decide) (by decide) (by decide)
  have e : Sprintln [ascii "boom"] = ascii "boom\n" := by decide
  rw [e] at h1
  refine ⟨s1, h1, ?_⟩
  rw [h3]
  decide

/-- C10 as amended (panic payload for a single string). When the threshold allows Panic,
`Panic(s)` raises with the payload `s` followed by one newline, which is the message text
`Sprintln` builds and `Format` receives; the payload carries no header. -/
theorem panic_payload_newline (s : State) (rt : Runtime) (str : Bytes)
    (hT : s.l.level ≤ Lpanic) (hv : rt.now.valid) (hp : s.pool.clean) :
    ∃ s1, defaultLogger.Panic s rt [str] = some (s1, Outcome.panicked (str ++ [10])) ∧
      s1.l.w.calls = s.l.w.calls ++
        [headerBytes s.l.f.flags s.vars rt.now Lpanic s.l.name ++ (str ++ [10])] := by
  have h := Panic_eq s rt [str] hT hv hp
  rw [Sprintln_one] at h
  refine ⟨_, h, ?_⟩
  have hn : newlineFor (str ++ [10]) = [] := by
    unfold newlineFor
    simp
  simp only [Writer.Write, lineBytes, hn, List.append_nil]

/-- Witness for C10 as amended: `Panic` with the string `boom`. -/
theorem panic_payload_newline_witness :
    ∃ s1, defaultLogger.Panic (sampleState Fdefault Ldebug Writer.buffer) sampleRuntime
        [ascii "boom"] = some (s1, Outcome.panicked (ascii "boom\n")) ∧
      s1.l.w.calls = [ascii "2024/03/09 07:05:01.001 PAN svc boom\n"] := by
  obtain ⟨s1, h1, h2⟩ := panic_payload_newline (sampleState Fdefault Ldebug Writer.buffer)
    sampleRuntime (ascii "boom") (by decide) (by decide) (by decide)
  refine ⟨s1, h1, ?_⟩
  rw [h2]
  decide

/-- Counterexample to C10 as stated: `Panic` with the string `boom` raises with the payload
`boom` and a newline, which is not the string that was passed. -/
theorem panic_payload_counterexample :
    (defaultLogger.Panic (sampleState Fdefault Ldebug Writer.buffer) sampleRuntime
        [ascii "boom"]).map (fun r => r.2) = some (Outcome.panicked (ascii "boom\n")) ∧
    Outcome.panicked (ascii "boom\n") ≠ Outcome.panicked (ascii "boom") := by
  decide

/-- C11 (threshold None). With a threshold above Panic, `Panic` and `Panicf` leave the state,
the writer included, untouched and raise with the empty string as payload; `Print` and
`Printf` at any level up to Panic return with the state untouched as well. -/
theorem none_silences_not_raise (s : State) (rt : Runtime) (format : Bytes) (v : List Bytes)
    (hT : Lpanic < s.l.level) :
    defaultLogger.Panic s rt v = some (s, Outcome.panicked []) ∧
    defaultLogger.Panicf s rt format v = some (s, Outcome.panicked []) ∧
    (∀ lvl : Int, lvl ≤ Lpanic →
      defaultLogger.Print s rt lvl v = some s ∧
      defaultLogger.Printf s rt lvl format v = some s) :=
  ⟨Panic_off s rt v hT, Panicf_off s rt format v hT,
    fun lvl hl => ⟨Print_off s rt lvl v (by omega), Printf_off s rt lvl format v (by omega)⟩⟩

/-- Witness for C11: threshold `Lnone`, `Panic` with the string `panic`. -/
theorem none_silences_not_raise_witness :
    (defaultLogger.Panic (sampleState Fdefault Lnone Writer.buffer) sampleRuntime
      [ascii "panic"]).map (fun r => (r.1.l.w.bytes, r.2)) =
      some ([], Outcome.panicked []) := by
  rw [(none_silences_not_raise (sampleState Fdefault Lnone Writer.buffer) sampleRuntime []
    [ascii "panic"] (by decide)).1]
  rfl

/-- C12 (Fatal always terminates). For every threshold, `Fatal` and `Fatalf` end in
`os.Exit(1)`: after the line (and the stack dump that follows it) has been handed to the
writer when `Lfatal >= threshold`, and with no write at all otherwise; the error the writer
answers plays no part. -/
theorem fatal_exits (s : State) (rt : Runtime) (format : Bytes) (v : List Bytes)
    (hv : rt.now.valid) (hp : s.pool.clean) :
    (∃ s1, defaultLogger.Fatal s rt v = some (s1, Outcome.exited 1) ∧
      s1.l.w.calls = s.l.w.calls ++
        (if Lfatal ≥ s.l.level then
          [lineBytes s.l.f.flags s.vars rt.now Lfatal s.l.name (Sprintln v),
            rt.stack.take 8192]
        else [])) ∧
    (∃ s2, defaultLogger.Fatalf s rt format v = some (s2, Outcome.exited 1) ∧
      s2.l.w.calls = s.l.w.calls ++
        (if Lfatal ≥ s.l.level then
          [lineBytes s.l.f.flags s.vars rt.now Lfatal s.l.name (rt.Sprintf format v),
            rt.stack.take 8192]
        else [])) :=
  ⟨Fatal_eq s rt v hv hp, Fatalf_eq s rt format v hv hp⟩

/-- Witness for C12: at threshold `Lnone` nothing is written and the process exits with
status 1; at threshold Debug with a writer that always fails the line and the stack dump are
handed over and the process exits with status 1. -/
theorem fatal_exits_witness :
    (∃ s1, defaultLogger.Fatal (sampleState Fdefault Lnone Writer.buffer) sampleRuntime
        [ascii "stop"] = some (s1, Outcome.exited 1) ∧ s1.l.w.calls = []) ∧
    (∃ s1, defaultLogger.Fatal (sampleState Fdefault Ldebug Writer.broken) sampleRuntime
        [ascii "stop"] = some (s1, Outcome.exited 1) ∧
      s1.l.w.calls = [ascii "2024/03/09 07:05:01.001 FTL svc stop\n",
        ascii "goroutine 1 [running]:\n"]) := by
  constructor
  · obtain ⟨⟨s1, h1, h2⟩, _⟩ := fatal_exits (sampleState Fdefault Lnone Writer.buffer)
      sampleRuntime [] [ascii "stop"] (by decide) (by decide)
    refine ⟨s1, h1, ?_⟩
    rw [h2]
    decide
  · obtain ⟨⟨s1, h1, h2⟩, _⟩ := fatal_exits (sampleState Fdefault Ldebug Writer.broken)
      sampleRuntime [] [ascii "stop"] (by decide) (by decide)
    refine ⟨s1, h1, ?_⟩
    rw [h2]
    decide

/-- C13 as amended (stack snapshot). For a message that passes the level gate, `Print` and
`Printf` hand the writer the formatted line and, right after it, the stack snapshot exactly
when the level is above Warning; the per-level methods are `Print` and `Printf` at their
level, and `Fatal` and `Fatalf` write line and snapshot. `Panic` and `Panicf` write the
formatted line and nothing after it. -/
theorem stack_snapshot (s : State) (rt : Runtime) (lvl : Int) (format : Bytes)
    (v : List Bytes) (hv : rt.now.valid) (hp : s.pool.clean) :
    (lvl ≥ s.l.level → ∃ s1, defaultLogger.Print s rt lvl v = some s1 ∧
      s1.l.w.calls = s.l.w.calls ++
        lineBytes s.l.f.flags s.vars rt.now lvl s.l.name (Sprintln v) ::
          (if lvl > Lwarning then [rt.stack.take 8192] else [])) ∧
    (lvl ≥ s.l.level → ∃ s1, defaultLogger.Printf s rt lvl format v = some s1 ∧
      s1.l.w.calls = s.l.w.calls ++
        lineBytes s.l.f.flags s.vars rt.now lvl s.l.name (rt.Sprintf format v) ::
          (if lvl > Lwarning then [rt.stack.take 8192] else [])) ∧
    (defaultLogger.Debug s rt v = defaultLogger.Print s rt Ldebug v ∧
      defaultLogger.Info s rt v = defaultLogger.Print s rt Linfo v ∧
      defaultLogger.Warning s rt v = defaultLogger.Print s rt Lwarning v ∧
      defaultLogger.Error s rt v = defaultLogger.Print s rt Lerror v ∧
      defaultLogger.Debugf s rt format v = defaultLogger.Printf s rt Ldebug format v ∧
      defaultLogger.Infof s rt format v = defaultLogger.Printf s rt Linfo format v ∧
      defaultLogger.Warningf s rt format v = defaultLogger.Printf s rt Lwarning format v ∧
      defaultLogger.Errorf s rt format v = defaultLogger.Printf s rt Lerror format v) ∧
    (Lfatal ≥ s.l.level → ∃ s1, defaultLogger.Fatal s rt v = some (s1, Outcome.exited 1) ∧
      s1.l.w.calls = s.l.w.calls ++
        [lineBytes s.l.f.flags s.vars rt.now Lfatal s.l.name (Sprintln v),
          rt.stack.take 8192]) ∧
    (Lfatal ≥ s.l.level → ∃ s1, defaultLogger.Fatalf s rt format v =
        some (s1, Outcome.exited 1) ∧
      s1.l.w.calls = s.l.w.calls ++
        [lineBytes s.l.f.flags s.vars rt.now Lfatal s.l.name (rt.Sprintf format v),
          rt.stack.take 8192]) ∧
    (Lpanic ≥ s.l.level → ∃ s1, defaultLogger.Panic s rt v =
        some (s1, Outcome.panicked (Sprintln v)) ∧
      s1.l.w.calls = s.l.w.calls ++
        [lineBytes s.l.f.flags s.vars rt.now Lpanic s.l.name (Sprintln v)]) ∧
    (Lpanic ≥ s.l.level → ∃ s1, defaultLogger.Panicf s rt format v =
        some (s1, Outcome.panicked (rt.Sprintf format v)) ∧
      s1.l.w.calls = s.l.w.calls ++
        [lineBytes s.l.f.flags s.vars rt.now Lpanic s.l.name (rt.Sprintf format v)]) := by
  refine ⟨?_, ?_, ⟨rfl, rfl, rfl, rfl, rfl, rfl, rfl, rfl⟩, ?_, ?_, ?_, ?_⟩
  · intro hg
    obtain ⟨s1, h1, h2⟩ := Print_eq s rt lvl v hv hp
    rw [if_pos hg] at h2
    exact ⟨s1, h1, h2⟩
  · intro hg
    obtain ⟨s1, h1, h2⟩ := Printf_eq s rt lvl format v hv hp
    rw [if_pos hg] at h2
    exact ⟨s1, h1, h2⟩
  · intro hg
    obtain ⟨s1, h1, h2⟩ := Fatal_eq s rt v hv hp
    rw [if_pos hg] at h2
    exact ⟨s1, h1, h2⟩
  · intro hg
    obtain ⟨s1, h1, h2⟩ := Fatalf_eq s rt format v hv hp
    rw [if_pos hg] at h2
    exact ⟨s1, h1, h2⟩
  · intro hg
    exact ⟨_, Panic_eq s rt v hg hv hp, rfl⟩
  · intro hg
    exact ⟨_, Panicf_eq s rt format v hg hv hp, rfl⟩

/-- Witness for C13 as amended: `Error` writes the line and the snapshot, `Warning` and
`Panic` write the line alone. -/
theorem stack_snapshot_witness :
    (∃ s1, defaultLogger.Error (sampleState Flevel Ldebug Writer.buffer) sampleRuntime
        [ascii "x"] = some s1 ∧
      s1.l.w.calls = [ascii "ERR x\n", ascii "goroutine 1 [running]:\n"]) ∧
    (∃ s1, defaultLogger.Warning (sampleState Flevel Ldebug Writer.buffer) sampleRuntime
        [ascii "x"] = some s1 ∧ s1.l.w.calls = [ascii "WRN x\n"]) ∧
    (∃ s1, defaultLogger.Panic (sampleState Flevel Ldebug Writer.buffer) sampleRuntime
        [ascii "x"] = some (s1, Outcome.panicked (ascii "x\n")) ∧
      s1.l.w.calls = [ascii "PAN x\n"]) := by
  refine ⟨?_, ?_, ?_⟩
  · obtain ⟨s1, h1, h2⟩ := (stack_snapshot (sampleState Flevel Ldebug Writer.buffer)
      sampleRuntime Lerror [] [ascii "x"] (by decide) (by decide)).1 (by decide)
    refine ⟨s1, h1, ?_⟩
    rw [h2]
    decide
  · obtain ⟨s1, h1, h2⟩ := (stack_snapshot (sampleState Flevel Ldebug Writer.buffer)
      sampleRuntime Lwarning [] [ascii "x"] (by decide) (by decide)).1 (by decide)
    refine ⟨s1, h1, ?_⟩
    rw [h2]
    decide
  · obtain ⟨s1, h1, h2⟩ := (stack_snapshot (sampleState Flevel Ldebug Writer.buffer)
      sampleRuntime Lpanic [] [ascii "x"] (by decide) (by decide)).2.2.2.2.2.1 (by decide)
    have e : Sprintln [ascii "x"] = ascii "x\n" := by decide
    rw [e] at h1
    refine ⟨s1, h1, ?_⟩
    rw [h2]
    decide

/-- Counterexample to C13 as stated: `Panic` at a threshold that lets it through (level
Panic is above Warning) hands the writer the formatted line only, no snapshot after it. -/
theorem stack_snapshot_counterexample :
    (defaultLogger.Panic (sampleState Flevel Ldebug Writer.buffer) sampleRuntime
      [ascii "x"]).map (fun r => r.1.l.w.calls) = some [ascii "PAN x\n"] ∧
    Lpanic > Lwarning ∧ Lpanic ≥ (sampleState Flevel Ldebug Writer.buffer).l.level := by
  decide

/-- C14 (package-level functions), the code at failing inputs. With `Default` at threshold
Debug and mask Level, the function `Info` writes a DBG line where `Default.Info` writes an
INF line, and the function `Error` writes a DBG line and no stack snapshot where
`Default.Error` writes an ERR line and the snapshot; with `Default` at threshold Info the
function `Info` writes nothing where `Default.Info` writes the INF line. -/
theorem free_functions_log_at_debug :
    (Info (sampleState Flevel Ldebug Writer.buffer) sampleRuntime [ascii "x"]).map
        (fun s => s.l.w.calls) = some [ascii "DBG x\n"] ∧
    (defaultLogger.Info (sampleState Flevel Ldebug Writer.buffer) sampleRuntime
        [ascii "x"]).map (fun s => s.l.w.calls) = some [ascii "INF x\n"] ∧
    (Error (sampleState Flevel Ldebug Writer.buffer) sampleRuntime [ascii "x"]).map
        (fun s => s.l.w.calls) = some [ascii "DBG x\n"] ∧
    (defaultLogger.Error (sampleState Flevel Ldebug Writer.buffer) sampleRuntime
        [ascii "x"]).map (fun s => s.l.w.calls) =
      some [ascii "ERR x\n", ascii "goroutine 1 [running]:\n"] ∧
    (Info (sampleState Flevel Linfo Writer.buffer) sampleRuntime [ascii "x"]).map
        (fun s => s.l.w.calls) = some [] ∧
    (defaultLogger.Info (sampleState Flevel Linfo Writer.buffer) sampleRuntime
        [ascii "x"]).map (fun s => s.l.w.calls) = some [ascii "INF x\n"] := by
  decide

/-- C15 (per-level methods). For every logger state and argument list, `Debug`, `Info`,
`Warning`, `Error` are `Print` with `Ldebug`, `Linfo`, `Lwarning`, `Lerror`, and `Debugf`,
`Infof`, `Warningf`, `Errorf` are `Printf` with those levels. A method whose level is below
the threshold returns with the state untouched. A method whose level is at or above the
threshold returns normally and, with the declared level table and the Level flag set, the
line it hands the writer carries the label DBG, INF, WRN, ERR respectively (for `Error` and
`Errorf` followed by the stack snapshot, as for `Print` at `Lerror`). -/
theorem level_methods (s : State) (rt : Runtime) (format : Bytes) (v : List Bytes) :
    (defaultLogger.Debug s rt v = defaultLogger.Print s rt Ldebug v ∧
      defaultLogger.Info s rt v = defaultLogger.Print s rt Linfo v ∧
      defaultLogger.Warning s rt v = defaultLogger.Print s rt Lwarning v ∧
      defaultLogger.Error s rt v = defaultLogger.Print s rt Lerror v ∧
      defaultLogger.Debugf s rt format v = defaultLogger.Printf s rt Ldebug format v ∧
      defaultLogger.Infof s rt format v = defaultLogger.Printf s rt Linfo format v ∧
      defaultLogger.Warningf s rt format v = defaultLogger.Printf s rt Lwarning format v ∧
      defaultLogger.Errorf s rt format v = defaultLogger.Printf s rt Lerror format v) ∧
    ((Ldebug < s.l.level →
        defaultLogger.Debug s rt v = some s ∧ defaultLogger.Debugf s rt format v = some s) ∧
      (Linfo < s.l.level →
        defaultLogger.Info s rt v = some s ∧ defaultLogger.Infof s rt format v = some s) ∧
      (Lwarning < s.l.level →
        defaultLogger.Warning s rt v = some s ∧
        defaultLogger.Warningf s rt format v = some s) ∧
      (Lerror < s.l.level →
        defaultLogger.Error s rt v = some s ∧ defaultLogger.Errorf s rt format v = some s)) ∧
    (rt.now.valid → s.pool.clean → s.vars.Mlevel = Mlevel → s.l.f.flags &&& Flevel ≠ 0 →
      (s.l.level ≤ Ldebug →
        ∃ s1, defaultLogger.Debug s rt v = some s1 ∧ s1.l.w.calls = s.l.w.calls ++
          [labelledLine s.l.f.flags s.vars rt.now (ascii "DBG") (ascii "\x1b[0;34m") s.l.name
            (Sprintln v)]) ∧
      (s.l.level ≤ Linfo →
        ∃ s1, defaultLogger.Info s rt v = some s1 ∧ s1.l.w.calls = s.l.w.calls ++
          [labelledLine s.l.f.flags s.vars rt.now (ascii "INF") (ascii "\x1b[0;32m") s.l.name
            (Sprintln v)]) ∧
      (s.l.level ≤ Lwarning →
        ∃ s1, defaultLogger.Warning s rt v = some s1 ∧ s1.l.w.calls = s.l.w.calls ++
          [labelledLine s.l.f.flags s.vars rt.now (ascii "WRN") (ascii "\x1b[0;33m") s.l.name
            (Sprintln v)]) ∧
      (s.l.level ≤ Lerror →
        ∃ s1, defaultLogger.Error s rt v = some s1 ∧ s1.l.w.calls = s.l.w.calls ++
          [labelledLine s.l.f.flags s.vars rt.now (ascii "ERR") (ascii "\x1b[0;31m") s.l.name
            (Sprintln v), rt.stack.take 8192]) ∧
      (s.l.level ≤ Ldebug →
        ∃ s1, defaultLogger.Debugf s rt format v = some s1 ∧ s1.l.w.calls = s.l.w.calls ++
          [labelledLine s.l.f.flags s.vars rt.now (ascii "DBG") (ascii "\x1b[0;34m") s.l.name
            (rt.Sprintf format v)]) ∧
      (s.l.level ≤ Linfo →
        ∃ s1, defaultLogger.Infof s rt format v = some s1 ∧ s1.l.w.calls = s.l.w.calls ++
          [labelledLine s.l.f.flags s.vars rt.now (ascii "INF") (ascii "\x1b[0;32m") s.l.name
            (rt.Sprintf format v)]) ∧
      (s.l.level ≤ Lwarning →
        ∃ s1, defaultLogger.Warningf s rt format v = some s1 ∧ s1.l.w.calls = s.l.w.calls ++
          [labelledLine s.l.f.flags s.vars rt.now (ascii "WRN") (ascii "\x1b[0;33m") s.l.name
            (rt.Sprintf format v)]) ∧
      (s.l.level ≤ Lerror →
        ∃ s1, defaultLogger.Errorf s rt format v = some s1 ∧ s1.l.w.calls = s.l.w.calls ++
          [labelledLine s.l.f.flags s.vars rt.now (ascii "ERR") (ascii "\x1b[0;31m") s.l.name
            (rt.Sprintf format v), rt.stack.take 8192])) := by
  refine ⟨⟨rfl, rfl, rfl, rfl, rfl, rfl, rfl, rfl⟩, ⟨?_, ?_, ?_, ?_⟩, ?_⟩
  · intro h
    exact ⟨Print_off s rt Ldebug v h, Printf_off s rt Ldebug format v h⟩
  · intro h
    exact ⟨Print_off s rt Linfo v h, Printf_off s rt Linfo format v h⟩
  · intro h
    exact ⟨Print_off s rt Lwarning v h, Printf_off s rt Lwarning format v h⟩
  · intro h
    exact ⟨Print_off s rt Lerror v h, Printf_off s rt Lerror format v h⟩
  intro hv hp hm hL
  have n0 : ¬ Ldebug > Lwarning := by decide
  have n1 : ¬ Linfo > Lwarning := by decide
  have n2 : ¬ Lwarning > Lwarning := by decide
  have n3 : Lerror > Lwarning := by decide
  have l0 : s.vars.Mlevel.lookup Ldebug = some (ascii "DBG", ascii "\x1b[0;34m") := by
    rw [hm]; decide
  have l1 : s.vars.Mlevel.lookup Linfo = some (ascii "INF", ascii "\x1b[0;32m") := by
    rw [hm]; decide
  have l2 : s.vars.Mlevel.lookup Lwarning = some (ascii "WRN", ascii "\x1b[0;33m") := by
    rw [hm]; decide
  have l3 : s.vars.Mlevel.lookup Lerror = some (ascii "ERR", ascii "\x1b[0;31m") := by
    rw [hm]; decide
  refine ⟨?_, ?_, ?_, ?_, ?_, ?_, ?_, ?_⟩
  · intro g0
    obtain ⟨s1, h1, h2⟩ := Print_eq s rt Ldebug v hv hp
    rw [if_pos (show Ldebug ≥ s.l.level from g0), if_neg n0,
      lineBytes_label _ _ _ _ _ _ _ _ hL l0] at h2
    exact ⟨s1, h1, h2⟩
  · intro g1
    obtain ⟨s1, h1, h2⟩ := Print_eq s rt Linfo v hv hp
    rw [if_pos (show Linfo ≥ s.l.level from g1), if_neg n1,
      lineBytes_label _ _ _ _ _ _ _ _ hL l1] at h2
    exact ⟨s1, h1, h2⟩
  · intro g2
    obtain ⟨s1, h1, h2⟩ := Print_eq s rt Lwarning v hv hp
    rw [if_pos (show Lwarning ≥ s.l.level from g2), if_neg n2,
      lineBytes_label _ _ _ _ _ _ _ _ hL l2] at h2
    exact ⟨s1, h1, h2⟩
  · intro g3
    obtain ⟨s1, h1, h2⟩ := Print_eq s rt Lerror v hv hp
    rw [if_pos (show Lerror ≥ s.l.level from g3), if_pos n3,
      lineBytes_label _ _ _ _ _ _ _ _ hL l3] at h2
    exact ⟨s1, h1, h2⟩
  · intro g0
    obtain ⟨s1, h1, h2⟩ := Printf_eq s rt Ldebug format v hv hp
    rw [if_pos (show Ldebug ≥ s.l.level from g0), if_neg n0,
      lineBytes_label _ _ _ _ _ _ _ _ hL l0] at h2
    exact ⟨s1, h1, h2⟩
  · intro g1
    obtain ⟨s1, h1, h2⟩ := Printf_eq s rt Linfo format v hv hp
    rw [if_pos (show Linfo ≥ s.l.level from g1), if_neg n1,
      lineBytes_label _ _ _ _ _ _ _ _ hL l1] at h2
    exact ⟨s1, h1, h2⟩
  · intro g2
    obtain ⟨s1, h1, h2⟩ := Printf_eq s rt Lwarning format v hv hp
    rw [if_pos (show Lwarning ≥ s.l.level from g2), if_neg n2,
      lineBytes_label _ _ _ _ _ _ _ _ hL l2] at h2
    exact ⟨s1, h1, h2⟩
  · intro g3
    obtain ⟨s1, h1, h2⟩ := Printf_eq s rt Lerror format v hv hp
    rw [if_pos (show Lerror ≥ s.l.level from g3), if_pos n3,
      lineBytes_label _ _ _ _ _ _ _ _ hL l3] at h2
    exact ⟨s1, h1, h2⟩

/-- Witness for C15: a logger after `SetLevel(Lwarning)` on the default mask at the sample
clock reading: `Debug` and `Info` write nothing, `Warning` writes its WRN line, `Error` its
ERR line and the stack snapshot; and a logger at threshold Debug, where `Debug` and `Info`
write their DBG and INF lines. -/
theorem level_methods_witness :
    defaultLogger.Debug (sampleState Fdefault Lwarning Writer.buffer) sampleRuntime
        [ascii "a", ascii "b"] = some (sampleState Fdefault Lwarning Writer.buffer) ∧
    defaultLogger.Info (sampleState Fdefault Lwarning Writer.buffer) sampleRuntime
        [ascii "a", ascii "b"] = some (sampleState Fdefault Lwarning Writer.buffer) ∧
    (∃ s1, defaultLogger.Warning (sampleState Fdefault Lwarning Writer.buffer) sampleRuntime
        [ascii "a", ascii "b"] = some s1 ∧
      s1.l.w.calls = [ascii "2024/03/09 07:05:01.001 WRN svc a b\n"]) ∧
    (∃ s1, defaultLogger.Error (sampleState Fdefault Lwarning Writer.buffer) sampleRuntime
        [ascii "a", ascii "b"] = some s1 ∧
      s1.l.w.calls = [ascii "2024/03/09 07:05:01.001 ERR svc a b\n",
        ascii "goroutine 1 [running]:\n"]) ∧
    (∃ s1, defaultLogger.Debug (sampleState Fdefault Ldebug Writer.buffer) sampleRuntime
        [ascii "a", ascii "b"] = some s1 ∧
      s1.l.w.calls = [ascii "2024/03/09 07:05:01.001 DBG svc a b\n"]) ∧
    (∃ s1, defaultLogger.Info (sampleState Fdefault Ldebug Writer.buffer) sampleRuntime
        [ascii "a", ascii "b"] = some s1 ∧
      s1.l.w.calls = [ascii "2024/03/09 07:05:01.001 INF svc a b\n"]) := by
  obtain ⟨_, ⟨o0, o1, _, _⟩, hw⟩ :=
    level_methods (sampleState Fdefault Lwarning Writer.buffer) sampleRuntime []
      [ascii "a", ascii "b"]
  obtain ⟨_, _, w2, w3, _⟩ := hw (by decide) (by decide) rfl (by decide)
  obtain ⟨_, _, hd⟩ :=
    level_methods (sampleState Fdefault Ldebug Writer.buffer) sampleRuntime []
      [ascii "a", ascii "b"]
  obtain ⟨d0, d1, _⟩ := hd (by decide) (by decide) rfl (by decide)
  obtain ⟨c, c1, c2⟩ := w2 (by decide)
  obtain ⟨d, e1, e2⟩ := w3 (by decide)
  obtain ⟨a, a1, a2⟩ := d0 (by decide)
  obtain ⟨b, b1, b2⟩ := d1 (by decide)
  refine ⟨(o0 (by decide)).1, (o1 (by decide)).1, ⟨c, c1, ?_⟩, ⟨d, e1, ?_⟩, ⟨a, a1, ?_⟩,
    ⟨b, b1, ?_⟩⟩
  · rw [c2]; decide
  · rw [e2]; decide
  · rw [a2]; decide
  · rw [b2]; decide

/-- C16 (sink error propagation). `Format` makes exactly one `Write` call, whose payload is
the whole rendered line, and returns exactly the error that call returned. -/
theorem sink_error_propagation (f : textFormatter) (g : Globals) (rt : Runtime)
    (pool : bufferPool) (w : Writer) (lvl : Int) (name msg : Bytes) (hv : rt.now.valid)
    (hp : pool.clean) :
    ∃ pool1, f.Format g rt pool w lvl name msg =
      some (pool1,
        { w with calls := w.calls ++ [lineBytes f.flags g rt.now lvl name msg] },
        w.fail w.calls (lineBytes f.flags g rt.now lvl name msg)) :=
  ⟨_, Format_eq f g rt pool w lvl name msg hv hp⟩

/-- Witness for C16: a writer that fails returns its error through `Format`, a
`bytes.Buffer` returns nil; each received the line in one call. -/
theorem sink_error_propagation_witness :
    ((NewTextFormatter Flevel).Format Globals.declared sampleRuntime newBufferPool
      Writer.broken Linfo [] (ascii "x")).map (fun r => (r.2.1.calls, r.2.2)) =
      some ([ascii "INF x\n"], some "write failed") ∧
    ((NewTextFormatter Flevel).Format Globals.declared sampleRuntime newBufferPool
      Writer.buffer Linfo [] (ascii "x")).map (fun r => (r.2.1.calls, r.2.2)) =
      some ([ascii "INF x\n"], none) := by
  obtain ⟨p1, h1⟩ := sink_error_propagation (NewTextFormatter Flevel) Globals.declared
    sampleRuntime newBufferPool Writer.broken Linfo [] (ascii "x") (by decide) (by decide)
  obtain ⟨p2, h2⟩ := sink_error_propagation (NewTextFormatter Flevel) Globals.declared
    sampleRuntime newBufferPool Writer.buffer Linfo [] (ascii "x") (by decide) (by decide)
  rw [h1, h2]
  simp only [Option.map]
  decide

/-- C17 (mask accessors), the code on a formatter whose lock is free. `SetFlags(m)`
completes, replaces the mask with `m` and leaves the lock free; `Flags()` takes the read
lock and its deferred `Unlock` (not `RUnlock`) meets a lock that is not held for writing, so
the call ends in the run-time fatal error instead of returning the mask. -/
theorem Flags_unlocks_read_lock (old m : Nat) :
    (NewTextFormatter old).SetFlags m = Step.ok (NewTextFormatter m) ∧
    (NewTextFormatter m).Flags = Step.fatal "sync: Unlock of unlocked RWMutex" := by
  constructor <;> rfl

/-- C19 (buffer reuse never leaks). The pool starts with no buffer; a `Format` call on a
pool whose buffers all have length zero returns such a pool again, whether the write
succeeded or failed, and hands the writer the line determined by its own mask, package
variables, timestamp, level, name and message; hence after any sequence of `Format` calls
starting from the initial pool every buffer in the pool has length zero and the writer has
received, call by call, exactly those lines. -/
theorem pool_never_leaks (w : Writer) (cs : List FormatCall)
    (hv : ∀ c ∈ cs, c.rt.now.valid) :
    newBufferPool.clean ∧
    (∀ (pool : bufferPool) (w0 : Writer) (c : FormatCall), pool.clean → c.rt.now.valid →
      ∃ pool1 w1 err, c.f.Format c.g c.rt pool w0 c.lvl c.name c.msg = some (pool1, w1, err) ∧
        pool1.clean ∧
        w1.calls = w0.calls ++ [lineBytes c.f.flags c.g c.rt.now c.lvl c.name c.msg]) ∧
    (∃ pool1 w1, formatAll newBufferPool w cs = some (pool1, w1) ∧ pool1.clean ∧
      w1.calls = w.calls ++
        cs.map (fun c => lineBytes c.f.flags c.g c.rt.now c.lvl c.name c.msg)) := by
  refine ⟨newBufferPool_clean, ?_, formatAll_clean cs newBufferPool w newBufferPool_clean hv⟩
  intro pool w0 c hp hc
  exact ⟨_, _, _, Format_eq c.f c.g c.rt pool w0 c.lvl c.name c.msg hc hp,
    Format_clean pool c.rt.pick hp, rfl⟩

/-- Witness for C19: two calls in a row on a failing writer, the second with a shorter
message; the second line holds nothing of the first and the pool holds one empty buffer. -/
theorem pool_never_leaks_witness :
    ∃ pool1 w1, formatAll newBufferPool Writer.broken
        [ { f := NewTextFormatter Flevel, g := Globals.declared, rt := sampleRuntime,
            lvl := Lerror, name := [], msg := ascii "a long first message" },
          { f := NewTextFormatter Flevel, g := Globals.declared, rt := sampleRuntime,
            lvl := Linfo, name := [], msg := ascii "x" } ] = some (pool1, w1) ∧
      pool1.clean ∧
      w1.calls = [ascii "ERR a long first message\n", ascii "INF x\n"] := by
  obtain ⟨_, _, pool1, w1, h1, h2, h3⟩ := pool_never_leaks Writer.broken
    [ { f := NewTextFormatter Flevel, g := Globals.declared, rt := sampleRuntime,
        lvl := Lerror, name := [], msg := ascii "a long first message" },
      { f := NewTextFormatter Flevel, g := Globals.declared, rt := sampleRuntime,
        lvl := Linfo, name := [], msg := ascii "x" } ] (by decide)
  refine ⟨pool1, w1, h1, h2, ?_⟩
  rw [h3]
  decide

/-- C20 (itoa renders fixed-width decimal). For `0 <= i < 2^63`, a width `wid <= 20` and
any buffer, `itoa` stays inside its 20-byte array and appends to the buffer, whose contents
stay in front unchanged, the decimal digits of `i` left-padded with `'0'` to
`max(wid, number of digits of i)` characters (the digit count is at least 1); nothing is
padded when `wid <= 1`; and for `wid` 2, 3 or 4 and `i < 10^wid` the appended text has `wid`
characters and value `i`. The width ranges over the values `wid--` can count down from
without leaving the `int` range, `wid >= -2^63 + (number of digits of i) - 1`, which holds
for every width from `-2^63 + 18` on; the callers of `itoa` pass 4, 2 and 3. -/
theorem itoa_fixed_width (buf : Bytes) (i wid : Int) (h0 : 0 ≤ i)
    (hi : i < 9223372036854775808) (hw : wid ≤ 20)
    (hlo : -9223372036854775808 + (numDigits i.toNat : Int) - 1 ≤ wid) :
    ∃ out, itoa buf i wid = some (buf ++ out) ∧
      out = List.replicate (wid.toNat - numDigits i.toNat) 48 ++
        lastDigits (numDigits i.toNat) i.toNat ∧
      out.length = max wid.toNat (numDigits i.toNat) ∧
      (∀ d ∈ out, 48 ≤ d ∧ d ≤ 57) ∧
      decValue (lastDigits (numDigits i.toNat) i.toNat) = i.toNat ∧
      i.toNat < 10 ^ numDigits i.toNat ∧
      (i ≠ 0 → 10 ^ (numDigits i.toNat - 1) ≤ i.toNat) ∧
      1 ≤ numDigits i.toNat ∧
      (wid ≤ 1 → out = lastDigits (numDigits i.toNat) i.toNat) ∧
      (2 ≤ wid → wid ≤ 4 → i.toNat < 10 ^ wid.toNat →
        out.length = wid.toNat ∧ decValue out = i.toNat) := by
  have hcast : i = ((i.toNat : Nat) : Int) := by omega
  have hn : ((i.toNat : Nat) : Int) < 9223372036854775808 := by omega
  have h19 := numDigits_int64 i.toNat hn
  have hspec := itoa_spec buf i.toNat wid hn hlo (by unfold itoaWidth; omega)
  rw [← hcast] at hspec
  have hlt := lt_pow_numDigits i.toNat
  refine ⟨zpad wid.toNat i.toNat, hspec, zpad_eq_pad _ _, ?_, zpad_digits _ _, ?_, hlt, ?_,
    numDigits_pos _, ?_, ?_⟩
  · unfold zpad
    rw [lastDigits_length]
  · rw [decValue_lastDigits, Nat.mod_eq_of_lt hlt]
  · intro hne
    exact pow_le_of_numDigits _ (by omega)
  · intro h1
    have hp := numDigits_pos i.toNat
    unfold zpad
    rw [max_eq_right (by omega)]
  · intro h2 h4 hlt2
    have hk := numDigits_le wid.toNat i.toNat (by omega) hlt2
    unfold zpad
    rw [max_eq_left hk, lastDigits_length, decValue_lastDigits, Nat.mod_eq_of_lt hlt2]
    exact ⟨rfl, rfl⟩

/-- Witness for C20: widths 4, 2 and 3 as `formatHeader` uses them, width -1
without padding, and a 19-digit value. -/
theorem itoa_fixed_width_witness :
    itoa (ascii "t=") 7 4 = some (ascii "t=0007") ∧
    itoa [] 59 2 = some (ascii "59") ∧
    itoa [] 1 3 = some (ascii "001") ∧
    itoa [] 0 (-1) = some (ascii "0") ∧
    itoa [] 12345 2 = some (ascii "12345") ∧
    itoa [] 9223372036854775807 20 = some (ascii "09223372036854775807") := by
  refine ⟨?_, ?_, ?_, ?_, ?_, ?_⟩
  · obtain ⟨out, h, e, _⟩ := itoa_fixed_width (ascii "t=") 7 4 (by decide) (by decide)
      (by decide) (by decide)
    rw [h, e]
    decide
  · obtain ⟨out, h, e, _⟩ := itoa_fixed_width [] 59 2 (by decide) (by decide)
      (by decide) (by decide)
    rw [h, e]
    decide
  · obtain ⟨out, h, e, _⟩ := itoa_fixed_width [] 1 3 (by decide) (by decide)
      (by decide) (by decide)
    rw [h, e]
    decide
  · obtain ⟨out, h, e, _⟩ := itoa_fixed_width [] 0 (-1) (by decide) (by decide)
      (by decide) (by decide)
    rw [h, e]
    decide
  · obtain ⟨out, h, e, _⟩ := itoa_fixed_width [] 12345 2 (by decide) (by decide)
      (by decide) (by decide)
    rw [h, e]
    decide
  · obtain ⟨out, h, e, _⟩ := itoa_fixed_width [] 9223372036854775807 20 (by decide)
      (by decide) (by decide) (by decide)
    rw [h, e]
    decide

end Loggie
